import Mathlib

/-!
# Verification of the skillify client-side logic

A shallow embedding of the logic of the skillify repository (a React client
for a mentoring platform) together with theorems settling the specified
properties.  The embedded pieces are:

* `src/App.tsx` — the route guard `AuthWrapper` and `getDashboardPath`;
* `src/components/CourseChat.tsx` — the chat panel's `handleSendMessage`;
* `src/pages/student/Messages.tsx` — student-side chat-list reconciliation
  (`fetchData`) and `handleSendMessage`;
* the mentor-side messages page (`MentorMessages`) and the mentoring-session
  page (`MentorMentoria`) from the unnamed source file — chat-list
  reconciliation, `handleStartMentoring`, `handleEndSession`,
  `handleConfirmRefuse`, `handleConfirmEditLink`, `updateCalendarEvents`,
  `filterSessionsByDate`, `isDayWithSession`, `getSessionCount`.

Modelling conventions:

* JavaScript `Date` objects used only at day granularity
  (`toDateString` bucketing, `getDate`/`getMonth`/`getFullYear` comparison,
  `isSameDay`) are modelled by a `Day` structure of the three components;
  `toDateString` is injective on calendar days, so keying a map by the
  `toDateString` string is the same as keying it by `Day`.
* A session's ISO `date` string is modelled by its parse result
  `Option (Option Day)`: `none` is a missing `date` field, `some none` an
  unparseable string (date-fns `parseISO` result failing `isValid`), and
  `some (some d)` a string parsing to calendar day `d`.
* `Date.now()` / `new Date()` timestamps are `Nat` parameters; all
  timestamps taken during one synchronous pass are one instant.
* Asynchronous backend calls are parameters describing their outcome
  (`Bool` for failure, `Option _` for failure-or-response).
* JavaScript `Map` (insertion-ordered) is an insertion-ordered association
  list; JS `Array.prototype.sort` (stable) is a stable insertion sort.
* JS truthiness tests on nullable strings (`!x`) treat both `null` and the
  empty string as falsy; this is modelled explicitly by `jsFalsyStr`.
-/

namespace Skillify

/-! ## Route guard (src/App.tsx) -/

/-- Rendering outcome of `AuthWrapper`: render nothing (auth not yet
checked), redirect via `<Navigate>`, or render the children. -/
inductive GuardResult where
  | nothing : GuardResult
  | redirect (path : String) : GuardResult
  | children : GuardResult
deriving DecidableEq, Repr

/-- `getDashboardPath` from `App.tsx`: the fixed role → dashboard-root
table, defaulting to the login path.  The `switch` on `userRole` is a
chain of strict string equalities. -/
def getDashboardPath (userRole : Option String) : String :=
  if userRole = some "ESTUDANTE" then "/dashboard"
  else if userRole = some "ADMIN" then "/admin"
  else if userRole = some "MENTOR" then "/mentor"
  else "/login"

/-- JS `String.prototype.trim`: drop whitespace from both ends.  Defined
structurally on the character list (rather than through `String.trim`,
which is defined by well-founded recursion on byte positions and does not
evaluate inside the kernel). -/
def jsTrim (s : String) : String :=
  String.mk (((s.data.dropWhile Char.isWhitespace).reverse.dropWhile
    Char.isWhitespace).reverse)

/-- JS truthiness of a nullable string: `null`/`undefined` and `""` are
falsy. -/
def jsFalsyStr (s : Option String) : Bool :=
  match s with
  | none => true
  | some str => str = ""

/-- `AuthWrapper` from `App.tsx`: renders nothing until the auth check has
run; redirects to `/login` when unauthenticated; redirects to
`getDashboardPath()` when a (truthy) `requiredRole` is given and differs
from `userRole`; otherwise renders the children. -/
def AuthWrapper (authChecked isAuthenticated : Bool) (userRole : Option String)
    (requiredRole : Option String) : GuardResult :=
  if !authChecked then GuardResult.nothing
  else if !isAuthenticated then GuardResult.redirect "/login"
  else if !(jsFalsyStr requiredRole) && userRole ≠ requiredRole then
    GuardResult.redirect (getDashboardPath userRole)
  else GuardResult.children

/-! ## Mentoring-session scheduling (MentorMentoria in the unnamed file) -/

/-- A calendar day: the `getFullYear`/`getMonth`/`getDate` components. -/
structure Day where
  year : Nat
  month : Nat
  day : Nat
deriving DecidableEq, Repr

/-- `SessionType` from the tutor-session DTOs. -/
inductive SessionType where
  | CHAMADA_DE_VIDEO : SessionType
  | CHAT : SessionType
deriving DecidableEq, Repr

/-- A participant of a tutor session (only the fields the embedded logic
reads). -/
structure SessionUser where
  id : String
  name : String
deriving DecidableEq, Repr

/-- `TutorSessionResponseDTO`.  `date` is the parse result of the ISO date
string (see the module docstring); `stype` is the DTO's `type` field
(`type` is a Lean keyword). -/
structure TutorSession where
  id : String
  mentor : SessionUser
  student : SessionUser
  title : String
  date : Option (Option Day)
  dateHour : String
  stype : SessionType
  link : Option String
deriving DecidableEq, Repr

/-- `CalendarEvent`: a day together with its session count. -/
structure CalendarEvent where
  date : Day
  sessions : Nat
deriving DecidableEq, Repr

/-- One `eventMap.set(dateStr, (eventMap.get(dateStr) || 0) + 1)` step on
the insertion-ordered map: increment an existing day's count in place, or
append a new entry with count 1. -/
def bumpDay : List (Day × Nat) → Day → List (Day × Nat)
  | [], d => [(d, 1)]
  | (d', n) :: rest, d =>
      if d' = d then (d', n + 1) :: rest else (d', n) :: bumpDay rest d

/-- The body of `updateCalendarEvents`'s `sessions.forEach` loop: a
session with a missing or unparseable date is only logged and skipped,
otherwise its day's counter is bumped. -/
def calendarStep (acc : List (Day × Nat)) (s : TutorSession) : List (Day × Nat) :=
  match s.date with
  | some (some d) => bumpDay acc d
  | _ => acc

/-- `updateCalendarEvents`: fold the sessions into the day-keyed counter
map, then materialise the map entries as `CalendarEvent`s
(`Array.from(eventMap.entries()).map(...)`). -/
def updateCalendarEvents (sessions : List TutorSession) : List CalendarEvent :=
  (sessions.foldl calendarStep []).map (fun p => { date := p.1, sessions := p.2 })

/-- `isDayWithSession`: `undefined` day is logged and answered `false`;
otherwise `calendarEvents.some` with component-wise day equality. -/
def isDayWithSession (calendarEvents : List CalendarEvent) (day : Option Day) : Bool :=
  match day with
  | none => false
  | some d => calendarEvents.any (fun e => e.date = d)

/-- `getSessionCount`: `undefined` day is logged and answered `0`;
otherwise `calendarEvents.find(...)?.sessions || 0`. -/
def getSessionCount (calendarEvents : List CalendarEvent) (day : Option Day) : Nat :=
  match day with
  | none => 0
  | some d =>
      match calendarEvents.find? (fun e => e.date = d) with
      | some e => e.sessions
      | none => 0

/-- `filterSessionsByDate`: with no selected date all sessions are shown;
otherwise keep the sessions whose date parses (`isValid`) and is
`isSameDay` with the selection (unparseable dates are logged and
dropped). -/
def filterSessionsByDate (selectedDate : Option Day)
    (mentoringSessions : List TutorSession) : List TutorSession :=
  match selectedDate with
  | none => mentoringSessions
  | some d =>
      mentoringSessions.filter (fun s =>
        match s.date with
        | some (some sd) => sd = d
        | _ => false)

/-- The `MentorMentoria` component state the embedded handlers touch. -/
structure MentoriaState where
  date : Option Day
  mentoringSessions : List TutorSession
  filteredSessions : List TutorSession
  activeSession : Option String
  calendarEvents : List CalendarEvent
  sessionToDelete : Option String
  sessionToEdit : Option TutorSession
  newLink : String
deriving DecidableEq, Repr

/-- Kind of a toast notification. -/
inductive ToastKind where
  | success : ToastKind
  | error : ToastKind
deriving DecidableEq, Repr

/-- Result of running one `MentorMentoria` handler: the new state plus the
observable effects — the toast shown (with its headline text), a window
opened for a video-call link, and whether a backend call
(delete-session / update-session) was issued. -/
structure OpResult where
  state : MentoriaState
  toast : Option (ToastKind × String)
  openedWindow : Option String
  networkCall : Bool
deriving DecidableEq, Repr

/-- `handleStartMentoring`.  Video-call sessions need a truthy, non-blank
link and only open a window.  Chat sessions are rejected with an error
toast while `activeSession` is truthy; otherwise the session becomes the
active one with a success toast.  No backend call in any branch. -/
def handleStartMentoring (st : MentoriaState) (sessionId : String)
    (stype : SessionType) (link : Option String) : OpResult :=
  if stype = SessionType.CHAMADA_DE_VIDEO then
    match link with
    | none =>
        { state := st, toast := some (ToastKind.error, "Link da chamada não disponível!"),
          openedWindow := none, networkCall := false }
    | some l =>
        if jsTrim l = "" then
          { state := st, toast := some (ToastKind.error, "Link da chamada não disponível!"),
            openedWindow := none, networkCall := false }
        else
          { state := st, toast := none, openedWindow := some l, networkCall := false }
  else
    if !(jsFalsyStr st.activeSession) then
      { state := st, toast := some (ToastKind.error, "Você já possui uma sessão ativa!"),
        openedWindow := none, networkCall := false }
    else
      { state := { st with activeSession := some sessionId },
        toast := some (ToastKind.success, "Chat iniciado!"),
        openedWindow := none, networkCall := false }

/-- `handleEndSession`.  On a successful delete the session is filtered
out of `mentoringSessions`, the calendar events are recomputed from the
filtered list, and the date filter is re-applied (the source's transient
call on the stale closure list is immediately re-run by the
`[date, mentoringSessions]` effect; the settled state is modelled).
On failure only an error toast is shown. -/
def handleEndSession (st : MentoriaState) (sessionId : String)
    (apiFails : Bool) : OpResult :=
  if apiFails then
    { state := st, toast := some (ToastKind.error, "Erro ao encerrar sessão"),
      openedWindow := none, networkCall := true }
  else
    let newSessions := st.mentoringSessions.filter (fun s => s.id ≠ sessionId)
    { state := { st with
        activeSession := none,
        mentoringSessions := newSessions,
        calendarEvents := updateCalendarEvents newSessions,
        filteredSessions := filterSessionsByDate st.date newSessions },
      toast := some (ToastKind.success, "Sessão encerrada com sucesso!"),
      openedWindow := none, networkCall := true }

/-- `handleConfirmRefuse`.  A falsy `sessionToDelete` returns early;
otherwise the same delete endpoint as `handleEndSession` is called and on
success the same list/calendar/filter updates run; the `finally` block
clears `sessionToDelete` in both branches. -/
def handleConfirmRefuse (st : MentoriaState) (apiFails : Bool) : OpResult :=
  if jsFalsyStr st.sessionToDelete then
    { state := st, toast := none, openedWindow := none, networkCall := false }
  else
    match st.sessionToDelete with
    | none => { state := st, toast := none, openedWindow := none, networkCall := false }
    | some sid =>
        if apiFails then
          { state := { st with sessionToDelete := none },
            toast := some (ToastKind.error, "Erro ao recusar sessão"),
            openedWindow := none, networkCall := true }
        else
          let newSessions := st.mentoringSessions.filter (fun s => s.id ≠ sid)
          { state := { st with
              mentoringSessions := newSessions,
              calendarEvents := updateCalendarEvents newSessions,
              filteredSessions := filterSessionsByDate st.date newSessions,
              sessionToDelete := none },
            toast := some (ToastKind.success, "Sessão recusada com sucesso!"),
            openedWindow := none, networkCall := true }

/-- `handleConfirmEditLink`.  A missing `sessionToEdit` or a blank trimmed
`newLink` is rejected with an error toast before any backend call.
Otherwise `updateSession` is issued; on success the session is replaced in
place (matched by id) and the date filter re-applied (settled state, as in
`handleEndSession`); the `finally` block clears `sessionToEdit` and
`newLink` whenever the call was made. -/
def handleConfirmEditLink (st : MentoriaState)
    (apiResult : Option TutorSession) : OpResult :=
  match st.sessionToEdit with
  | none =>
      { state := st, toast := some (ToastKind.error, "Por favor, insira um link válido"),
        openedWindow := none, networkCall := false }
  | some sessionToEdit =>
      if jsTrim st.newLink = "" then
        { state := st, toast := some (ToastKind.error, "Por favor, insira um link válido"),
          openedWindow := none, networkCall := false }
      else
        match apiResult with
        | none =>
            { state := { st with sessionToEdit := none, newLink := "" },
              toast := some (ToastKind.error, "Erro ao atualizar link"),
              openedWindow := none, networkCall := true }
        | some updatedSession =>
            let newSessions := st.mentoringSessions.map (fun s =>
              if s.id = sessionToEdit.id then updatedSession else s)
            { state := { st with
                mentoringSessions := newSessions,
                filteredSessions := filterSessionsByDate st.date newSessions,
                sessionToEdit := none, newLink := "" },
              toast := some (ToastKind.success, "Link atualizado com sucesso!"),
              openedWindow := none, networkCall := true }

/-! ## Messaging module data model -/

/-- `UserRole` from the user DTOs. -/
inductive UserRole where
  | ESTUDANTE : UserRole
  | ADMIN : UserRole
  | MENTOR : UserRole
deriving DecidableEq, Repr

/-- A user record as it appears inside message DTOs and rosters (the
fields the embedded logic reads). -/
structure UserDTO where
  id : String
  name : String
  role : UserRole
deriving DecidableEq, Repr

/-- `MessageResponseDTO`: sender (`remetente`), recipient
(`destinatario`) and content. -/
structure MessageDTO where
  remetente : UserDTO
  destinatario : UserDTO
  content : String
deriving DecidableEq, Repr

/-- A chat-list entry (`StudentChat` on the mentor page, `MentorChat` on
the student page).  `lastMessageTime` is a timestamp (`none` =
`undefined`). -/
structure Chat where
  id : String
  name : String
  avatar : Option String
  lastMessage : Option String
  lastMessageTime : Option Nat
  unread : Bool
deriving DecidableEq, Repr

/-- The conditional-expression chain picking the message participant with
the given role (`message.remetente.role === role ? remetente :
message.destinatario.role === role ? destinatario : null`). -/
def counterpartOf (target : UserRole) (m : MessageDTO) : Option UserDTO :=
  if m.remetente.role = target then some m.remetente
  else if m.destinatario.role = target then some m.destinatario
  else none

/-- The summary record the map-building loop stores for a counterpart on
its first-seen message: no avatar, the message's content as
`lastMessage`, the page's timestamp, `unread: false`. -/
def chatOfMessage (u : UserDTO) (m : MessageDTO) (now : Option Nat) : Chat :=
  { id := u.id, name := u.name, avatar := none,
    lastMessage := some m.content, lastMessageTime := now, unread := false }

/-- One iteration of the `allMessages.forEach` map-building loop: when the
message has a counterpart of the target role (the source re-checks the
role) whose id is not yet in the map, append a summary record built from
this message.  `now` is the `lastMessageTime` the page stores (`none` on
the mentor page, the current instant on the student page). -/
def addChatEntry (target : UserRole) (now : Option Nat)
    (acc : List Chat) (m : MessageDTO) : List Chat :=
  match counterpartOf target m with
  | none => acc
  | some u =>
      if u.role = target then
        if acc.any (fun c => c.id = u.id) then acc
        else acc ++ [chatOfMessage u m now]
      else acc

/-- The whole map-building loop followed by `Array.from(map.values())`
(JS `Map` preserves insertion order). -/
def buildChats (target : UserRole) (now : Option Nat)
    (msgs : List MessageDTO) : List Chat :=
  msgs.foldl (addChatEntry target now) []

/-- The sort comparator `(a, b) => ...` on `lastMessageTime` (most recent
first, entries without a timestamp last, ties keep order), phrased as
"`a` may stay before `b`", i.e. `comparator a b ≤ 0`. -/
def chatLe (a b : Chat) : Bool :=
  match a.lastMessageTime, b.lastMessageTime with
  | none, none => true
  | none, some _ => false
  | some _, none => true
  | some ta, some tb => decide (tb ≤ ta)

/-- Stable insertion of one element into an already-sorted prefix. -/
def insertSorted (c : Chat) : List Chat → List Chat
  | [] => [c]
  | d :: ds => if chatLe c d then c :: d :: ds else d :: insertSorted c ds

/-- `Array.prototype.sort` with the `lastMessageTime` comparator, modelled
as a stable insertion sort (JS sort is stable). -/
def sortChats (l : List Chat) : List Chat :=
  l.foldr insertSorted []

/-! ## Mentor-side messages page (`MentorMessages`) -/

/-- `MentorMessages.fetchData` chat-list construction: concatenate
received-then-sent messages, **reverse** the concatenation, build the
per-student summary map (`lastMessageTime` is left `undefined`), and
sort. -/
def mentorFetchChats (received sent : List MessageDTO) : List Chat :=
  sortChats (buildChats UserRole.ESTUDANTE none ((received ++ sent).reverse))

/-- `MentorMessages.fetchData` roster handling: students (by role) that do
not already appear in the with-chats list, mapped to bare chat records. -/
def mentorStudentsWithoutChats (allStudents : List UserDTO)
    (studentsWithChats : List Chat) : List Chat :=
  (allStudents.filter (fun student =>
      student.role = UserRole.ESTUDANTE &&
      !(studentsWithChats.any (fun c => c.id = student.id)))).map
    (fun student => { id := student.id, name := student.name, avatar := none,
                      lastMessage := none, lastMessageTime := none,
                      unread := false })

/-- The `MentorMessages` component state the embedded handlers touch. -/
structure MentorMessagesState where
  studentsWithChats : List Chat
  studentsWithoutChats : List Chat
  selectedStudent : Option Chat
deriving DecidableEq, Repr

/-- `MentorMessages.handleSendMessage`.  Returns the new state together
with whether the returned promise rejects — it never does: the `catch`
block only logs.  On API success the selected student is (re-)inserted at
the head of the with-chats list with the sent content and the current
instant, and removed from both prior lists. -/
def mentorHandleSendMessage (t : Nat) (content : String) (apiFails : Bool)
    (mentorId : Option String) (st : MentorMessagesState) :
    MentorMessagesState × Bool :=
  match st.selectedStudent with
  | none => (st, false)
  | some selectedStudent =>
      if jsFalsyStr mentorId then (st, false)
      else if apiFails then (st, false)
      else
        let newStudentChat : Chat :=
          { selectedStudent with
              lastMessage := some content
              lastMessageTime := some t
              unread := false }
        ({ studentsWithChats :=
             newStudentChat ::
               st.studentsWithChats.filter (fun s => s.id ≠ selectedStudent.id),
           studentsWithoutChats :=
             st.studentsWithoutChats.filter (fun s => s.id ≠ selectedStudent.id),
           selectedStudent := some newStudentChat }, false)

/-! ## Student-side messages page (`StudentMessages`) -/

/-- `StudentMessages.fetchData` chat-list construction: concatenate
received-then-sent messages (no reversal), build the per-mentor summary
map stamping each record with the current instant `t`, and sort. -/
def studentFetchChats (t : Nat) (received sent : List MessageDTO) : List Chat :=
  sortChats (buildChats UserRole.MENTOR (some t) (received ++ sent))

/-- `StudentMessages.fetchData` roster handling: available mentors
filtered by role, then by absence from the with-chats list, mapped to
bare chat records. -/
def availableMentorsList (availableMentorsResponse : List UserDTO)
    (mentorsWithChats : List Chat) : List Chat :=
  (((availableMentorsResponse.filter (fun mentor => mentor.role = UserRole.MENTOR)).filter
      (fun mentor => !(mentorsWithChats.any (fun c => c.id = mentor.id)))).map
    (fun mentor => { id := mentor.id, name := mentor.name, avatar := none,
                     lastMessage := none, lastMessageTime := none,
                     unread := false }))

/-- The `StudentMessages` component state the embedded handlers touch. -/
structure StudentMessagesState where
  mentorsWithChats : List Chat
  availableMentors : List Chat
  selectedMentor : Option Chat
deriving DecidableEq, Repr

/-- `StudentMessages.handleSendMessage`.  Returns the new state together
with whether the returned promise rejects — it never does: the `catch`
block only logs.  `apiResult` is the created message's content returned by
the backend (`none` = the send failed).  A first send moves the selected
mentor from the available list to the head of the with-chats list; a
repeat send re-inserts an updated record at the head.  In both cases the
selected mentor is updated with the *argument* content. -/
def studentHandleSendMessage (t : Nat) (content : String)
    (apiResult : Option String) (studentId : Option String)
    (st : StudentMessagesState) : StudentMessagesState × Bool :=
  match st.selectedMentor with
  | none => (st, false)
  | some selectedMentor =>
      if jsFalsyStr studentId then (st, false)
      else
        match apiResult with
        | none => (st, false)
        | some sentContent =>
            let newSelected : Chat :=
              { selectedMentor with
                  lastMessage := some content
                  lastMessageTime := some t }
            if !(st.mentorsWithChats.any (fun m => m.id = selectedMentor.id)) then
              let newMentorChat : Chat :=
                { selectedMentor with
                    lastMessage := some sentContent
                    lastMessageTime := some t
                    unread := false }
              ({ mentorsWithChats := newMentorChat :: st.mentorsWithChats,
                 availableMentors :=
                   st.availableMentors.filter (fun m => m.id ≠ selectedMentor.id),
                 selectedMentor := some newSelected }, false)
            else
              let updatedMentor : Chat :=
                { selectedMentor with
                    lastMessage := some sentContent
                    lastMessageTime := some t
                    unread := false }
              ({ mentorsWithChats :=
                   updatedMentor ::
                     st.mentorsWithChats.filter (fun m => m.id ≠ selectedMentor.id),
                 availableMentors := st.availableMentors,
                 selectedMentor := some newSelected }, false)

/-! ## Chat panel (`CourseChat`) -/

/-- The panel's render-model message (`ChatMessage`): synthesized id, the
author label, avatar, content. -/
structure PanelMessage where
  id : String
  userName : String
  avatar : Option String
  content : String
deriving DecidableEq, Repr

/-- The `CourseChat` component state the send handler touches. -/
structure PanelState where
  messages : List PanelMessage
  newMessage : String
deriving DecidableEq, Repr

/-- Result of the panel's `handleSendMessage`: new state, and whether the
`onSendMessage` callback was invoked. -/
structure PanelResult where
  state : PanelState
  callbackInvoked : Bool
deriving DecidableEq, Repr

/-- `CourseChat.handleSendMessage`.  A blank trimmed input or a falsy
stored user id returns before anything happens.  Otherwise an optimistic
message with id `Date.now().toString()` is appended and the input cleared;
when the awaited `onSendMessage` callback rejects (`callbackRejects`), the
`catch` removes every message whose id equals the optimistic id. -/
def panelHandleSendMessage (mentorId : Option String) (now : Nat)
    (callbackRejects : Bool) (st : PanelState) : PanelResult :=
  if jsTrim st.newMessage = "" || jsFalsyStr mentorId then
    { state := st, callbackInvoked := false }
  else
    let optimisticMessage : PanelMessage :=
      { id := toString now, userName := "Você", avatar := none,
        content := st.newMessage }
    let appended := st.messages ++ [optimisticMessage]
    if callbackRejects then
      { state := { messages := appended.filter (fun m => m.id ≠ optimisticMessage.id),
                   newMessage := "" },
        callbackInvoked := true }
    else
      { state := { messages := appended, newMessage := "" },
        callbackInvoked := true }

/-- The panel composed with the mentor page's `handleSendMessage` as its
`onSendMessage` callback: the panel appends the optimistic message, awaits
the page handler (which performs the backend send and *catches* its
failure without rethrowing), and rolls back only if that await rejects. -/
def composedMentorSend (t now : Nat) (apiFails : Bool)
    (mentorId : Option String) (panel : PanelState)
    (page : MentorMessagesState) : PanelState × MentorMessagesState :=
  if jsTrim panel.newMessage = "" || jsFalsyStr mentorId then (panel, page)
  else
    let optimisticMessage : PanelMessage :=
      { id := toString now, userName := "Você", avatar := none,
        content := panel.newMessage }
    let appended := panel.messages ++ [optimisticMessage]
    let pr := mentorHandleSendMessage t panel.newMessage apiFails mentorId page
    if pr.2 then
      ({ messages := appended.filter (fun m => m.id ≠ optimisticMessage.id),
         newMessage := "" }, pr.1)
    else
      ({ messages := appended, newMessage := "" }, pr.1)

/-! ## Concrete fixtures used by witnesses and counterexamples -/

/-- A session fixture: id and parsed date, other fields fixed. -/
def exSession (id : String) (date : Option (Option Day)) : TutorSession :=
  { id := id, mentor := { id := "m1", name := "Mentor" },
    student := { id := "s1", name := "Student" }, title := "Aula",
    date := date, dateHour := "10:00", stype := SessionType.CHAT,
    link := some "https://example.org" }

/-- A `MentorMentoria` state fixture over a given session list. -/
def exMentoriaState (sessions : List TutorSession)
    (active : Option String) (toDelete : Option String)
    (toEdit : Option TutorSession) (newLink : String) : MentoriaState :=
  { date := none, mentoringSessions := sessions,
    filteredSessions := filterSessionsByDate none sessions,
    activeSession := active,
    calendarEvents := updateCalendarEvents sessions,
    sessionToDelete := toDelete, sessionToEdit := toEdit, newLink := newLink }

/-- A chat-list entry fixture. -/
def exChat (id name : String) : Chat :=
  { id := id, name := name, avatar := none, lastMessage := none,
    lastMessageTime := none, unread := false }

/-! ## Counting lemmas for the calendar aggregation -/

/-- Lookup of a day's counter in the association-list event map (`0` when
absent, mirroring `eventMap.get(dateStr) || 0`). -/
def lookupDay : List (Day × Nat) → Day → Nat
  | [], _ => 0
  | (d', n) :: rest, d => if d' = d then n else lookupDay rest d

/-- The number of sessions of a list whose date parses to the given
calendar day. -/
def sessionsOnDay (l : List TutorSession) (d : Day) : Nat :=
  (l.filter (fun s => s.date = some (some d))).length

theorem lookupDay_bumpDay (evs : List (Day × Nat)) (d d' : Day) :
    lookupDay (bumpDay evs d) d' =
      if d' = d then lookupDay evs d' + 1 else lookupDay evs d' := by
  induction evs with
  | nil =>
      by_cases h : d = d'
      · subst h; simp [bumpDay, lookupDay]
      · have h' : ¬ d' = d := fun hh => h hh.symm
        simp [bumpDay, lookupDay, h, h']
  | cons p rest ih =>
      obtain ⟨dk, n⟩ := p
      by_cases h1 : dk = d
      · subst h1
        by_cases h2 : dk = d'
        · subst h2; simp [bumpDay, lookupDay]
        · have h2' : ¬ d' = dk := fun hh => h2 hh.symm
          simp [bumpDay, lookupDay, h2, h2']
      · by_cases h2 : dk = d'
        · have h3 : ¬ d' = d := fun hh => h1 (h2.trans hh)
          simp [bumpDay, lookupDay, h1, h2, h3]
        · simp [bumpDay, lookupDay, h1, h2, ih]

theorem lookupDay_foldl (l : List TutorSession) (evs : List (Day × Nat))
    (d : Day) :
    lookupDay (l.foldl calendarStep evs) d = lookupDay evs d + sessionsOnDay l d := by
  induction l generalizing evs with
  | nil => simp [sessionsOnDay]
  | cons s rest ih =>
      simp only [List.foldl_cons]
      rw [ih]
      rcases hdate : s.date with _ | (_ | d0)
      · simp [calendarStep, sessionsOnDay, hdate, List.filter_cons]
      · simp [calendarStep, sessionsOnDay, hdate, List.filter_cons]
      · by_cases h : d0 = d
        · subst h
          simp [calendarStep, hdate, lookupDay_bumpDay, sessionsOnDay,
            List.filter_cons]
          omega
        · have hne : ¬ (s.date = some (some d)) := by simp [hdate, h]
          have h' : ¬ d = d0 := fun hh => h hh.symm
          simp [calendarStep, hdate, lookupDay_bumpDay, h, h', sessionsOnDay,
            List.filter_cons, hne]

theorem getSessionCount_map_eq_lookupDay (evs : List (Day × Nat)) (d : Day) :
    getSessionCount
        (evs.map (fun p => ({ date := p.1, sessions := p.2 } : CalendarEvent)))
        (some d) = lookupDay evs d := by
  induction evs with
  | nil => simp [getSessionCount, lookupDay]
  | cons p rest ih =>
      obtain ⟨dk, n⟩ := p
      simp only [List.map_cons, getSessionCount] at ih ⊢
      by_cases h : dk = d
      · subst h
        rw [List.find?_cons_of_pos]
        · simp [lookupDay]
        · simp
      · rw [List.find?_cons_of_neg]
        · simp only [lookupDay]
          rw [if_neg h]
          exact ih
        · simp [h]

/-- `getSessionCount` after `updateCalendarEvents` is the number of
sessions on that day. -/
theorem getSessionCount_updateCalendarEvents (l : List TutorSession) (d : Day) :
    getSessionCount (updateCalendarEvents l) (some d) = sessionsOnDay l d := by
  rw [updateCalendarEvents, getSessionCount_map_eq_lookupDay, lookupDay_foldl]
  simp [lookupDay]

theorem bumpDay_pos (evs : List (Day × Nat)) (d : Day)
    (h : ∀ p ∈ evs, 0 < p.2) : ∀ p ∈ bumpDay evs d, 0 < p.2 := by
  induction evs with
  | nil => intro p hp; simp [bumpDay] at hp; subst hp; simp
  | cons q rest ih =>
      obtain ⟨dk, n⟩ := q
      intro p hp
      by_cases hd : dk = d
      · simp [bumpDay, hd] at hp
        rcases hp with hp | hp
        · subst hp; simp
        · exact h p (by simp [hp])
      · simp [bumpDay, hd] at hp
        rcases hp with hp | hp
        · subst hp; exact h (dk, n) (by simp)
        · exact ih (fun q hq => h q (by simp [hq])) p hp

theorem foldl_calendarStep_pos (l : List TutorSession)
    (evs : List (Day × Nat)) (h : ∀ p ∈ evs, 0 < p.2) :
    ∀ p ∈ l.foldl calendarStep evs, 0 < p.2 := by
  induction l generalizing evs with
  | nil => simpa using h
  | cons s rest ih =>
      simp only [List.foldl_cons]
      refine ih _ ?_
      rcases hdate : s.date with _ | (_ | d0)
      · simpa [calendarStep, hdate] using h
      · simpa [calendarStep, hdate] using h
      · simpa [calendarStep, hdate] using bumpDay_pos evs d0 h

theorem lookupDay_pos_of_any (evs : List (Day × Nat))
    (hpos : ∀ p ∈ evs, 0 < p.2) (d : Day)
    (h : evs.any (fun p => p.1 = d) = true) : 0 < lookupDay evs d := by
  induction evs with
  | nil => simp at h
  | cons p rest ih =>
      obtain ⟨dk, n⟩ := p
      by_cases hd : dk = d
      · subst hd
        simpa [lookupDay] using hpos (dk, n) (by simp)
      · simp [lookupDay, hd]
        refine ih (fun q hq => hpos q (by simp [hq])) ?_
        simpa [hd] using h

theorem any_of_lookupDay_pos (evs : List (Day × Nat)) (d : Day)
    (h : 0 < lookupDay evs d) : evs.any (fun p => p.1 = d) = true := by
  induction evs with
  | nil => simp [lookupDay] at h
  | cons p rest ih =>
      obtain ⟨dk, n⟩ := p
      by_cases hd : dk = d
      · simp [hd]
      · simp [lookupDay, hd] at h
        simp [hd, ih h]

/-- `isDayWithSession` after `updateCalendarEvents` holds exactly when
some session sits on that day. -/
theorem isDayWithSession_updateCalendarEvents (l : List TutorSession) (d : Day) :
    isDayWithSession (updateCalendarEvents l) (some d) = true ↔
      0 < sessionsOnDay l d := by
  have hmapAny : ∀ (evs : List (Day × Nat)),
      (evs.map (fun p => ({ date := p.1, sessions := p.2 } : CalendarEvent))).any
          (fun e => e.date = d)
        = evs.any (fun p => p.1 = d) := by
    intro evs
    induction evs with
    | nil => rfl
    | cons q rest ih =>
        obtain ⟨dk, n⟩ := q
        simp [List.any_cons, ih]
  have hmap : isDayWithSession (updateCalendarEvents l) (some d)
      = (l.foldl calendarStep []).any (fun p => p.1 = d) := by
    simp only [isDayWithSession, updateCalendarEvents]
    exact hmapAny _
  have hlook : lookupDay (l.foldl calendarStep []) d = sessionsOnDay l d := by
    rw [lookupDay_foldl]; simp [lookupDay]
  constructor
  · intro h
    rw [hmap] at h
    have := lookupDay_pos_of_any _ (foldl_calendarStep_pos l [] (by simp)) d h
    rwa [hlook] at this
  · intro h
    rw [hmap]
    exact any_of_lookupDay_pos _ _ (by rwa [hlook])

/-! ## C3 — route guard -/

/-- C3: with the auth check done and a token present, a truthy
`requiredRole` differing from the stored role redirects to
`getDashboardPath` of the stored role; in particular role `MENTOR` on the
student-only route is redirected to `/mentor`, which is not the login
path; with no token the guard redirects to `/login`; and
`getDashboardPath` yields `/login` for every role outside the three known
ones. -/
theorem authWrapper_role_redirects (role r : String) (hr : r ≠ "")
    (hdiff : role ≠ r) :
    AuthWrapper true true (some role) (some r)
        = GuardResult.redirect (getDashboardPath (some role)) ∧
    AuthWrapper true true (some "MENTOR") (some "ESTUDANTE")
        = GuardResult.redirect "/mentor" ∧
    "/mentor" ≠ "/login" ∧
    (∀ (userRole requiredRole : Option String),
        AuthWrapper true false userRole requiredRole
          = GuardResult.redirect "/login") ∧
    (∀ (ur : Option String), ur ≠ some "ESTUDANTE" → ur ≠ some "ADMIN" →
        ur ≠ some "MENTOR" → getDashboardPath ur = "/login") := by
  refine ⟨?_, ?_, ?_, ?_, ?_⟩
  · simp [AuthWrapper, jsFalsyStr, hr, hdiff]
  · simp [AuthWrapper, jsFalsyStr, getDashboardPath]
  · simp
  · intro userRole requiredRole
    simp [AuthWrapper]
  · intro ur h1 h2 h3
    simp [getDashboardPath, h1, h2, h3]

/-- Witness for C3 at role `MENTOR`, required role `ESTUDANTE`. -/
theorem authWrapper_role_redirects_witness :
    AuthWrapper true true (some "MENTOR") (some "ESTUDANTE")
      = GuardResult.redirect (getDashboardPath (some "MENTOR")) :=
  (authWrapper_role_redirects "MENTOR" "ESTUDANTE" (by decide) (by decide)).1

/-! ## C7 — at most one active chat session -/

/-- C7: starting a chat-type session while `activeSession` holds a
session id is rejected with the error toast and changes nothing: the
whole state (so in particular `activeSession` and the session lists) is
returned untouched, no window opens and no backend call is made. -/
theorem startMentoring_second_chat_rejected (st : MentoriaState)
    (aid : String) (hActive : st.activeSession = some aid) (hne : aid ≠ "")
    (sessionId : String) (link : Option String) :
    handleStartMentoring st sessionId SessionType.CHAT link =
      { state := st,
        toast := some (ToastKind.error, "Você já possui uma sessão ativa!"),
        openedWindow := none, networkCall := false } := by
  simp [handleStartMentoring, hActive, jsFalsyStr, hne]

/-- Witness for C7: a concrete state with session `a1` active. -/
theorem startMentoring_second_chat_rejected_witness :
    handleStartMentoring
        (exMentoriaState [exSession "a1" (some (some ⟨2026, 1, 2⟩))]
          (some "a1") none none "") "a2" SessionType.CHAT none =
      { state := exMentoriaState [exSession "a1" (some (some ⟨2026, 1, 2⟩))]
          (some "a1") none none "",
        toast := some (ToastKind.error, "Você já possui uma sessão ativa!"),
        openedWindow := none, networkCall := false } :=
  startMentoring_second_chat_rejected
    (exMentoriaState [exSession "a1" (some (some ⟨2026, 1, 2⟩))]
      (some "a1") none none "") "a1" (by decide) (by decide) "a2" none

/-! ## C8 — edit-link rejects blank input -/

/-- C8: when the entered link trims to the empty string the edit-link
confirmation is rejected with the error toast, the state (in particular
the session list) is unchanged, and no backend call is issued. -/
theorem confirmEditLink_blank_rejected (st : MentoriaState)
    (apiResult : Option TutorSession) (hblank : jsTrim st.newLink = "") :
    handleConfirmEditLink st apiResult =
      { state := st,
        toast := some (ToastKind.error, "Por favor, insira um link válido"),
        openedWindow := none, networkCall := false } := by
  cases h : st.sessionToEdit with
  | none => simp [handleConfirmEditLink, h]
  | some s => simp [handleConfirmEditLink, h, hblank]

/-- Witness for C8: whitespace-only input on a concrete state. -/
theorem confirmEditLink_blank_rejected_witness :
    handleConfirmEditLink
        (exMentoriaState [exSession "a1" (some (some ⟨2026, 1, 2⟩))] none none
          (some (exSession "a1" (some (some ⟨2026, 1, 2⟩)))) "   ") none =
      { state := exMentoriaState [exSession "a1" (some (some ⟨2026, 1, 2⟩))]
          none none (some (exSession "a1" (some (some ⟨2026, 1, 2⟩)))) "   ",
        toast := some (ToastKind.error, "Por favor, insira um link válido"),
        openedWindow := none, networkCall := false } :=
  confirmEditLink_blank_rejected
    (exMentoriaState [exSession "a1" (some (some ⟨2026, 1, 2⟩))] none none
      (some (exSession "a1" (some (some ⟨2026, 1, 2⟩)))) "   ") none (by decide)

/-! ## C4 — calendar aggregation -/

/-- C4: with three sessions on day `d1` and one on a different day `d2`,
`isDayWithSession` is true for both days and `getSessionCount` answers 3
and 1; and inserting a session with a missing or unparseable date
anywhere in any session list leaves `updateCalendarEvents` (and hence
every day's count) unchanged. -/
theorem calendar_aggregation (d1 d2 : Day) (hne : d1 ≠ d2)
    (s1 s2 s3 s4 : TutorSession)
    (h1 : s1.date = some (some d1)) (h2 : s2.date = some (some d1))
    (h3 : s3.date = some (some d1)) (h4 : s4.date = some (some d2)) :
    isDayWithSession (updateCalendarEvents [s1, s2, s3, s4]) (some d1) = true ∧
    isDayWithSession (updateCalendarEvents [s1, s2, s3, s4]) (some d2) = true ∧
    getSessionCount (updateCalendarEvents [s1, s2, s3, s4]) (some d1) = 3 ∧
    getSessionCount (updateCalendarEvents [s1, s2, s3, s4]) (some d2) = 1 ∧
    (∀ (pre post : List TutorSession) (s : TutorSession),
        s.date = none ∨ s.date = some none →
        updateCalendarEvents (pre ++ s :: post)
          = updateCalendarEvents (pre ++ post)) := by
  have hne21 : ¬ (some (some d2) : Option (Option Day)) = some (some d1) := by
    simp; exact fun hh => hne hh.symm
  have hne12 : ¬ (some (some d1) : Option (Option Day)) = some (some d2) := by
    simp [hne]
  have hc1 : sessionsOnDay [s1, s2, s3, s4] d1 = 3 := by
    simp [sessionsOnDay, List.filter_cons, h1, h2, h3, h4, hne21]
  have hc2 : sessionsOnDay [s1, s2, s3, s4] d2 = 1 := by
    simp [sessionsOnDay, List.filter_cons, h1, h2, h3, h4, hne12]
  refine ⟨?_, ?_, ?_, ?_, ?_⟩
  · rw [isDayWithSession_updateCalendarEvents, hc1]; omega
  · rw [isDayWithSession_updateCalendarEvents, hc2]; omega
  · rw [getSessionCount_updateCalendarEvents, hc1]
  · rw [getSessionCount_updateCalendarEvents, hc2]
  · intro pre post s hs
    have hstep : ∀ (acc : List (Day × Nat)), calendarStep acc s = acc := by
      intro acc
      rcases hs with hs | hs <;> simp [calendarStep, hs]
    simp only [updateCalendarEvents, List.foldl_append, List.foldl_cons, hstep]

/-- Witness for C4 on concrete days and sessions (including one session
with a missing date and one with an unparseable date appended). -/
theorem calendar_aggregation_witness :
    isDayWithSession
        (updateCalendarEvents
          [exSession "a1" (some (some ⟨2026, 1, 2⟩)),
           exSession "a2" (some (some ⟨2026, 1, 2⟩)),
           exSession "a3" (some (some ⟨2026, 1, 2⟩)),
           exSession "a4" (some (some ⟨2026, 1, 3⟩))]) (some ⟨2026, 1, 2⟩) = true ∧
    getSessionCount
        (updateCalendarEvents
          [exSession "a1" (some (some ⟨2026, 1, 2⟩)),
           exSession "a2" (some (some ⟨2026, 1, 2⟩)),
           exSession "a3" (some (some ⟨2026, 1, 2⟩)),
           exSession "a4" (some (some ⟨2026, 1, 3⟩))]) (some ⟨2026, 1, 2⟩) = 3 ∧
    updateCalendarEvents
        [exSession "a1" (some (some ⟨2026, 1, 2⟩)), exSession "bad" none]
      = updateCalendarEvents [exSession "a1" (some (some ⟨2026, 1, 2⟩))] := by
  have h := calendar_aggregation ⟨2026, 1, 2⟩ ⟨2026, 1, 3⟩ (by decide)
    (exSession "a1" (some (some ⟨2026, 1, 2⟩)))
    (exSession "a2" (some (some ⟨2026, 1, 2⟩)))
    (exSession "a3" (some (some ⟨2026, 1, 2⟩)))
    (exSession "a4" (some (some ⟨2026, 1, 3⟩)))
    (by decide) (by decide) (by decide) (by decide)
  exact ⟨h.1, h.2.2.1,
    h.2.2.2.2 [exSession "a1" (some (some ⟨2026, 1, 2⟩))] [] (exSession "bad" none)
      (Or.inl (by decide))⟩

/-! ## C5 — deleting a session -/

theorem sessionsOnDay_filter_of_mem (l : List TutorSession)
    (s0 : TutorSession) (hnodup : (l.map (fun s => s.id)).Nodup)
    (hmem : s0 ∈ l) (d : Day) (hd : s0.date = some (some d)) :
    sessionsOnDay (l.filter (fun s => s.id ≠ s0.id)) d + 1
      = sessionsOnDay l d := by
  induction l with
  | nil => simp at hmem
  | cons a rest ih =>
      have hnodup' := hnodup
      rw [List.map_cons, List.nodup_cons] at hnodup'
      obtain ⟨hhead, htailnodup⟩ := hnodup'
      rcases List.mem_cons.mp hmem with ha | ha
      · subst ha
        have hrest : rest.filter (fun s => s.id ≠ s0.id) = rest := by
          refine List.filter_eq_self.mpr ?_
          intro b hb
          have hbid : b.id ∈ rest.map (fun s => s.id) :=
            List.mem_map.mpr ⟨b, hb, rfl⟩
          have : b.id ≠ s0.id := fun hh => hhead (hh ▸ hbid)
          simpa using this
        have hstep : (s0 :: rest).filter (fun s => s.id ≠ s0.id) = rest := by
          rw [List.filter_cons_of_neg (by simp)]
          exact hrest
        simp only [sessionsOnDay]
        rw [hstep]
        simp [List.filter_cons, hd]
      · have hsid : s0.id ∈ rest.map (fun s => s.id) :=
          List.mem_map.mpr ⟨s0, ha, rfl⟩
        have haid : a.id ≠ s0.id := fun hh => hhead (hh ▸ hsid)
        have htail := ih htailnodup ha
        by_cases hda : a.date = some (some d) <;>
          simp only [sessionsOnDay] at htail ⊢ <;>
          simp [List.filter_cons, haid, hda] at htail ⊢ <;>
          omega

theorem mem_of_mem_filterSessionsByDate (sel : Option Day)
    (l : List TutorSession) (s : TutorSession)
    (h : s ∈ filterSessionsByDate sel l) : s ∈ l := by
  cases sel with
  | none =>
      simp only [filterSessionsByDate] at h
      exact h
  | some d =>
      simp only [filterSessionsByDate] at h
      exact List.mem_of_mem_filter h

/-- C5: after a successful delete — by `handleEndSession` or by a
confirmed `handleConfirmRefuse` — the deleted session's id is absent
from the visible (date-filtered) list, the deleted session's day has its
calendar count decremented by one, and if it was the only session on its
day, `isDayWithSession` becomes false for that day.  Hypotheses: the
session is in the list, session ids are pairwise distinct, and
`calendarEvents` is the aggregation of the current list (the component's
derived-state invariant). -/
theorem delete_session_updates (st : MentoriaState) (s0 : TutorSession)
    (d : Day) (hmem : s0 ∈ st.mentoringSessions)
    (hnodup : (st.mentoringSessions.map (fun s => s.id)).Nodup)
    (hcal : st.calendarEvents = updateCalendarEvents st.mentoringSessions)
    (hd : s0.date = some (some d))
    (hdel : st.sessionToDelete = some s0.id) (hid : s0.id ≠ "") :
    (∀ s ∈ (handleEndSession st s0.id false).state.filteredSessions,
        s.id ≠ s0.id) ∧
    getSessionCount (handleEndSession st s0.id false).state.calendarEvents
        (some d) + 1 = getSessionCount st.calendarEvents (some d) ∧
    (getSessionCount st.calendarEvents (some d) = 1 →
      isDayWithSession (handleEndSession st s0.id false).state.calendarEvents
        (some d) = false) ∧
    (∀ s ∈ (handleConfirmRefuse st false).state.filteredSessions,
        s.id ≠ s0.id) ∧
    getSessionCount (handleConfirmRefuse st false).state.calendarEvents
        (some d) + 1 = getSessionCount st.calendarEvents (some d) ∧
    (getSessionCount st.calendarEvents (some d) = 1 →
      isDayWithSession (handleConfirmRefuse st false).state.calendarEvents
        (some d) = false) := by
  have hEnd : (handleEndSession st s0.id false).state.filteredSessions
        = filterSessionsByDate st.date
            (st.mentoringSessions.filter (fun s => s.id ≠ s0.id)) ∧
      (handleEndSession st s0.id false).state.calendarEvents
        = updateCalendarEvents
            (st.mentoringSessions.filter (fun s => s.id ≠ s0.id)) := by
    constructor <;> simp [handleEndSession]
  have hRef : (handleConfirmRefuse st false).state.filteredSessions
        = filterSessionsByDate st.date
            (st.mentoringSessions.filter (fun s => s.id ≠ s0.id)) ∧
      (handleConfirmRefuse st false).state.calendarEvents
        = updateCalendarEvents
            (st.mentoringSessions.filter (fun s => s.id ≠ s0.id)) := by
    constructor <;> simp [handleConfirmRefuse, hdel, jsFalsyStr, hid]
  have habs : ∀ (fl : List TutorSession),
      fl = filterSessionsByDate st.date
            (st.mentoringSessions.filter (fun s => s.id ≠ s0.id)) →
      ∀ s ∈ fl, s.id ≠ s0.id := by
    intro fl hfl s hs
    subst hfl
    have hmem' := mem_of_mem_filterSessionsByDate _ _ _ hs
    have := List.of_mem_filter hmem'
    simpa using this
  have hdec : sessionsOnDay
        (st.mentoringSessions.filter (fun s => s.id ≠ s0.id)) d + 1
      = sessionsOnDay st.mentoringSessions d :=
    sessionsOnDay_filter_of_mem _ _ hnodup hmem d hd
  have hcount : ∀ (ce : List CalendarEvent),
      ce = updateCalendarEvents
            (st.mentoringSessions.filter (fun s => s.id ≠ s0.id)) →
      getSessionCount ce (some d) + 1
        = getSessionCount st.calendarEvents (some d) := by
    intro ce hce
    rw [hce, hcal, getSessionCount_updateCalendarEvents,
      getSessionCount_updateCalendarEvents]
    exact hdec
  have hlast : ∀ (ce : List CalendarEvent),
      ce = updateCalendarEvents
            (st.mentoringSessions.filter (fun s => s.id ≠ s0.id)) →
      getSessionCount st.calendarEvents (some d) = 1 →
      isDayWithSession ce (some d) = false := by
    intro ce hce h1
    rw [hcal, getSessionCount_updateCalendarEvents] at h1
    have hzero : sessionsOnDay
        (st.mentoringSessions.filter (fun s => s.id ≠ s0.id)) d = 0 := by
      omega
    rw [hce]
    have hnot : ¬ (isDayWithSession (updateCalendarEvents
        (st.mentoringSessions.filter (fun s => s.id ≠ s0.id))) (some d) = true) := by
      rw [isDayWithSession_updateCalendarEvents, hzero]
      omega
    revert hnot
    cases isDayWithSession (updateCalendarEvents
      (st.mentoringSessions.filter (fun s => s.id ≠ s0.id))) (some d) <;> simp
  exact ⟨habs _ hEnd.1, hcount _ hEnd.2, hlast _ hEnd.2,
    habs _ hRef.1, hcount _ hRef.2, hlast _ hRef.2⟩

/-- Witness for C5: deleting session `a1` (the only one on 2026-01-02)
from a two-session list. -/
theorem delete_session_updates_witness :
    getSessionCount
        ((handleEndSession
            (exMentoriaState
              [exSession "a1" (some (some ⟨2026, 1, 2⟩)),
               exSession "a2" (some (some ⟨2026, 1, 3⟩))]
              none (some "a1") none "")
            (exSession "a1" (some (some ⟨2026, 1, 2⟩))).id
            false).state.calendarEvents) (some ⟨2026, 1, 2⟩) + 1
      = getSessionCount
          (exMentoriaState
            [exSession "a1" (some (some ⟨2026, 1, 2⟩)),
             exSession "a2" (some (some ⟨2026, 1, 3⟩))]
            none (some "a1") none "").calendarEvents (some ⟨2026, 1, 2⟩) ∧
    isDayWithSession
        ((handleEndSession
            (exMentoriaState
              [exSession "a1" (some (some ⟨2026, 1, 2⟩)),
               exSession "a2" (some (some ⟨2026, 1, 3⟩))]
              none (some "a1") none "")
            (exSession "a1" (some (some ⟨2026, 1, 2⟩))).id
            false).state.calendarEvents) (some ⟨2026, 1, 2⟩) = false := by
  have h := delete_session_updates
    (exMentoriaState
      [exSession "a1" (some (some ⟨2026, 1, 2⟩)),
       exSession "a2" (some (some ⟨2026, 1, 3⟩))]
      none (some "a1") none "")
    (exSession "a1" (some (some ⟨2026, 1, 2⟩))) ⟨2026, 1, 2⟩
    (by simp [exMentoriaState]) (by decide)
    (by rfl) (by decide) (by decide) (by decide)
  exact ⟨h.2.1, h.2.2.1 (by decide)⟩

/-! ## C9 — chat panel send guard -/

/-- C9: submitting the panel's send form with a blank trimmed input, or
with a falsy stored user id, changes nothing: the message list and input
are untouched and the `onSendMessage` callback is not invoked. -/
theorem panelSend_blank_noop (st : PanelState) (mentorId : Option String)
    (now : Nat) (callbackRejects : Bool)
    (h : jsTrim st.newMessage = "" ∨ jsFalsyStr mentorId = true) :
    panelHandleSendMessage mentorId now callbackRejects st =
      { state := st, callbackInvoked := false } := by
  rcases h with h | h
  · simp [panelHandleSendMessage, h]
  · simp [panelHandleSendMessage, h]

/-- Witness for C9: whitespace-only input. -/
theorem panelSend_blank_noop_witness :
    panelHandleSendMessage (some "m1") 42 false
        { messages := [], newMessage := "   " } =
      { state := { messages := [], newMessage := "   " },
        callbackInvoked := false } :=
  panelSend_blank_noop { messages := [], newMessage := "   " } (some "m1") 42
    false (Or.inl (by decide))

/-! ## Lemmas about the chat-list reconciliation -/

/-- The content of the first message in the list whose counterpart of the
given role has id `cid` (`none` when no message involves `cid`).  This is
the "first-encountered message" notion the specification describes; it is
compared below with what the code computes. -/
def firstMessageInvolving (target : UserRole) (cid : String) :
    List MessageDTO → Option String
  | [] => none
  | m :: rest =>
      match counterpartOf target m with
      | some u =>
          if u.id = cid then some m.content
          else firstMessageInvolving target cid rest
      | none => firstMessageInvolving target cid rest

theorem counterpartOf_role {target : UserRole} {m : MessageDTO} {u : UserDTO}
    (h : counterpartOf target m = some u) : u.role = target := by
  unfold counterpartOf at h
  by_cases h1 : m.remetente.role = target
  · rw [if_pos h1] at h
    cases h
    exact h1
  · rw [if_neg h1] at h
    by_cases h2 : m.destinatario.role = target
    · rw [if_pos h2] at h
      cases h
      exact h2
    · rw [if_neg h2] at h
      cases h

theorem mem_addChatEntry {target : UserRole} {now : Option Nat}
    {acc : List Chat} {m : MessageDTO} {c : Chat}
    (hc : c ∈ addChatEntry target now acc m) :
    c ∈ acc ∨ ∃ u, counterpartOf target m = some u ∧ c = chatOfMessage u m now := by
  cases hcp : counterpartOf target m with
  | none =>
      simp only [addChatEntry, hcp] at hc
      exact Or.inl hc
  | some u =>
      simp only [addChatEntry, hcp] at hc
      rw [if_pos (counterpartOf_role hcp)] at hc
      by_cases hin : acc.any (fun c => c.id = u.id)
      · rw [if_pos hin] at hc
        exact Or.inl hc
      · rw [if_neg hin] at hc
        rcases List.mem_append.mp hc with h | h
        · exact Or.inl h
        · exact Or.inr ⟨u, rfl, by simpa using h⟩

theorem mem_foldl_addChatEntry {target : UserRole} {now : Option Nat}
    {msgs : List MessageDTO} {acc : List Chat} {c : Chat}
    (hc : c ∈ msgs.foldl (addChatEntry target now) acc) :
    c ∈ acc ∨ ∃ u m, counterpartOf target m = some u ∧ c = chatOfMessage u m now := by
  induction msgs generalizing acc with
  | nil => exact Or.inl hc
  | cons m rest ih =>
      simp only [List.foldl_cons] at hc
      rcases ih hc with h | h
      · rcases mem_addChatEntry h with h' | ⟨u, hcp, hcc⟩
        · exact Or.inl h'
        · exact Or.inr ⟨u, m, hcp, hcc⟩
      · exact Or.inr h

theorem time_of_mem_buildChats {target : UserRole} {now : Option Nat}
    {msgs : List MessageDTO} {c : Chat}
    (hc : c ∈ buildChats target now msgs) : c.lastMessageTime = now := by
  rcases mem_foldl_addChatEntry hc with h | ⟨u, m, _, hcc⟩
  · simp at h
  · rw [hcc]; rfl

theorem insertSorted_eq_cons (c : Chat) (l : List Chat) (t0 : Option Nat)
    (hc : c.lastMessageTime = t0) (hl : ∀ x ∈ l, x.lastMessageTime = t0) :
    insertSorted c l = c :: l := by
  cases l with
  | nil => rfl
  | cons d ds =>
      have hd := hl d (by simp)
      have hled : chatLe c d = true := by
        cases t0 with
        | none => simp [chatLe, hc, hd]
        | some tt => simp [chatLe, hc, hd]
      simp [insertSorted, hled]

/-- On the actual data both pages produce — every record carrying the
same `lastMessageTime` — the stable sort is the identity (the comparator
returns "equal" for every pair). -/
theorem sortChats_eq_self (l : List Chat) (t0 : Option Nat)
    (h : ∀ c ∈ l, c.lastMessageTime = t0) : sortChats l = l := by
  induction l with
  | nil => rfl
  | cons c rest ih =>
      have hrest : sortChats rest = rest := ih (fun x hx => h x (by simp [hx]))
      show insertSorted c (sortChats rest) = c :: rest
      rw [hrest]
      exact insertSorted_eq_cons c rest t0 (h c (by simp))
        (fun x hx => h x (by simp [hx]))

theorem mentorFetchChats_eq_buildChats (received sent : List MessageDTO) :
    mentorFetchChats received sent
      = buildChats UserRole.ESTUDANTE none ((received ++ sent).reverse) :=
  sortChats_eq_self _ none (fun _ hc => time_of_mem_buildChats hc)

theorem studentFetchChats_eq_buildChats (t : Nat)
    (received sent : List MessageDTO) :
    studentFetchChats t received sent
      = buildChats UserRole.MENTOR (some t) (received ++ sent) :=
  sortChats_eq_self _ (some t) (fun _ hc => time_of_mem_buildChats hc)

theorem countP_foldl_addChatEntry (target : UserRole) (now : Option Nat)
    (cid : String) (msgs : List MessageDTO) (acc : List Chat) :
    (msgs.foldl (addChatEntry target now) acc).countP (fun c => c.id = cid)
      = acc.countP (fun c => c.id = cid)
        + (if acc.any (fun c => c.id = cid) then 0
           else if (firstMessageInvolving target cid msgs).isSome then 1 else 0) := by
  induction msgs generalizing acc with
  | nil => simp [firstMessageInvolving]
  | cons m rest ih =>
      simp only [List.foldl_cons]
      rw [ih]
      cases hcp : counterpartOf target m with
      | none =>
          have hstep : addChatEntry target now acc m = acc := by
            simp [addChatEntry, hcp]
          have hfirst : firstMessageInvolving target cid (m :: rest)
              = firstMessageInvolving target cid rest := by
            simp [firstMessageInvolving, hcp]
          rw [hstep, hfirst]
      | some u =>
          have hrole := counterpartOf_role hcp
          by_cases hucid : u.id = cid
          · subst hucid
            have hfirst : firstMessageInvolving target u.id (m :: rest)
                = some m.content := by
              simp [firstMessageInvolving, hcp]
            rw [hfirst]
            by_cases hin : acc.any (fun c => c.id = u.id)
            · have hstep : addChatEntry target now acc m = acc := by
                simp [addChatEntry, hcp, hrole, hin]
              rw [hstep, if_pos hin, if_pos hin]
            · have hstep : addChatEntry target now acc m
                  = acc ++ [chatOfMessage u m now] := by
                simp [addChatEntry, hcp, hrole, hin]
              rw [hstep]
              have hany : (acc ++ [chatOfMessage u m now]).any
                  (fun c => c.id = u.id) = true := by
                simp [List.any_append, chatOfMessage]
              rw [if_pos hany, if_neg hin]
              simp [List.countP_append, List.countP_cons, chatOfMessage]
          · have hfirst : firstMessageInvolving target cid (m :: rest)
                = firstMessageInvolving target cid rest := by
              simp [firstMessageInvolving, hcp, hucid]
            rw [hfirst]
            by_cases hin : acc.any (fun c => c.id = u.id)
            · have hstep : addChatEntry target now acc m = acc := by
                simp [addChatEntry, hcp, hrole, hin]
              rw [hstep]
            · have hstep : addChatEntry target now acc m
                  = acc ++ [chatOfMessage u m now] := by
                simp [addChatEntry, hcp, hrole, hin]
              rw [hstep]
              have hcount : (acc ++ [chatOfMessage u m now]).countP
                    (fun c => c.id = cid)
                  = acc.countP (fun c => c.id = cid) := by
                simp [List.countP_append, List.countP_cons, chatOfMessage, hucid]
              have hany : (acc ++ [chatOfMessage u m now]).any
                    (fun c => c.id = cid)
                  = acc.any (fun c => c.id = cid) := by
                simp [List.any_append, chatOfMessage, hucid]
              rw [hcount, hany]

theorem lastMessage_foldl_addChatEntry (target : UserRole) (now : Option Nat)
    (msgs : List MessageDTO) (acc : List Chat) (c : Chat)
    (hc : c ∈ msgs.foldl (addChatEntry target now) acc) :
    c ∈ acc ∨ (acc.any (fun x => x.id = c.id) = false ∧
      c.lastMessage = firstMessageInvolving target c.id msgs) := by
  induction msgs generalizing acc with
  | nil => exact Or.inl hc
  | cons m rest ih =>
      simp only [List.foldl_cons] at hc
      cases hcp : counterpartOf target m with
      | none =>
          have hstep : addChatEntry target now acc m = acc := by
            simp [addChatEntry, hcp]
          rw [hstep] at hc
          rcases ih _ hc with h | ⟨hany, hlast⟩
          · exact Or.inl h
          · right
            exact ⟨hany, by simp [firstMessageInvolving, hcp, hlast]⟩
      | some u =>
          have hrole := counterpartOf_role hcp
          by_cases hin : acc.any (fun x => x.id = u.id)
          · have hstep : addChatEntry target now acc m = acc := by
              simp [addChatEntry, hcp, hrole, hin]
            rw [hstep] at hc
            rcases ih _ hc with h | ⟨hany, hlast⟩
            · exact Or.inl h
            · right
              have hne : ¬ (u.id = c.id) := by
                intro hh
                rw [hh] at hin
                simp [hany] at hin
              exact ⟨hany, by simp [firstMessageInvolving, hcp, hne, hlast]⟩
          · have hstep : addChatEntry target now acc m
                = acc ++ [chatOfMessage u m now] := by
              simp [addChatEntry, hcp, hrole, hin]
            rw [hstep] at hc
            rcases ih _ hc with h | ⟨hany, hlast⟩
            · rcases List.mem_append.mp h with h' | h'
              · exact Or.inl h'
              · have hcc : c = chatOfMessage u m now := by simpa using h'
                subst hcc
                right
                constructor
                · simpa [chatOfMessage] using hin
                · simp [chatOfMessage, firstMessageInvolving, hcp]
            · right
              have h1 : acc.any (fun x => x.id = c.id) = false := by
                cases hb : acc.any (fun x => x.id = c.id) with
                | false => rfl
                | true => simp [List.any_append, hb] at hany
              have h2 : ¬ (u.id = c.id) := by
                intro hh
                simp [List.any_append, chatOfMessage, hh] at hany
              exact ⟨h1, by simp [firstMessageInvolving, hcp, h2, hlast]⟩

/-! ## C1 — chat-list reconciliation -/

/-- C1 counterexample.  Student side (current user `B`): received
`[A→B "y"]`, sent `[B→A "x"]`.  The claim predicts `lastMessage = "x"`
(the first message in sent-then-received order), but the code concatenates
received-then-sent and stores `"y"`.  Mentor side: two sent messages
`[A→B "s1", A→B "s2"]`; the claim predicts `"s1"`, but the code iterates
the *reversed* concatenation and stores `"s2"`. -/
theorem chat_reconciliation_counterexample :
    ((studentFetchChats 0
        [{ remetente := { id := "A", name := "Alice", role := UserRole.MENTOR },
           destinatario := { id := "B", name := "Bob", role := UserRole.ESTUDANTE },
           content := "y" }]
        [{ remetente := { id := "B", name := "Bob", role := UserRole.ESTUDANTE },
           destinatario := { id := "A", name := "Alice", role := UserRole.MENTOR },
           content := "x" }]).map (fun c => c.lastMessage) = [some "y"]) ∧
    firstMessageInvolving UserRole.MENTOR "A"
        ([{ remetente := { id := "B", name := "Bob", role := UserRole.ESTUDANTE },
            destinatario := { id := "A", name := "Alice", role := UserRole.MENTOR },
            content := "x" }] ++
         [{ remetente := { id := "A", name := "Alice", role := UserRole.MENTOR },
            destinatario := { id := "B", name := "Bob", role := UserRole.ESTUDANTE },
            content := "y" }]) = some "x" ∧
    ((mentorFetchChats []
        [{ remetente := { id := "A", name := "Alice", role := UserRole.MENTOR },
           destinatario := { id := "B", name := "Bob", role := UserRole.ESTUDANTE },
           content := "s1" },
         { remetente := { id := "A", name := "Alice", role := UserRole.MENTOR },
           destinatario := { id := "B", name := "Bob", role := UserRole.ESTUDANTE },
           content := "s2" }]).map (fun c => c.lastMessage) = [some "s2"]) ∧
    firstMessageInvolving UserRole.ESTUDANTE "B"
        ([{ remetente := { id := "A", name := "Alice", role := UserRole.MENTOR },
            destinatario := { id := "B", name := "Bob", role := UserRole.ESTUDANTE },
            content := "s1" },
          { remetente := { id := "A", name := "Alice", role := UserRole.MENTOR },
            destinatario := { id := "B", name := "Bob", role := UserRole.ESTUDANTE },
            content := "s2" }] ++ []) = some "s1" ∧
    some "y" ≠ some "x" ∧ some "s2" ≠ some "s1" := by
  decide

/-- C1 amended: each occurring counterpart id yields exactly one summary
record, and its `lastMessage` is the content of the first message
encountered **in the order the code iterates**: the student page iterates
the received-then-sent concatenation, the mentor page iterates the
*reverse* of the received-then-sent concatenation (so its first-seen
message is the last occurrence in concatenation order). -/
theorem chat_reconciliation_first_seen (t : Nat)
    (received sent : List MessageDTO) (cid : String) :
    ((studentFetchChats t received sent).countP (fun c => c.id = cid)
      = if (firstMessageInvolving UserRole.MENTOR cid (received ++ sent)).isSome
        then 1 else 0) ∧
    (∀ c ∈ studentFetchChats t received sent,
        c.lastMessage
          = firstMessageInvolving UserRole.MENTOR c.id (received ++ sent)) ∧
    ((mentorFetchChats received sent).countP (fun c => c.id = cid)
      = if (firstMessageInvolving UserRole.ESTUDANTE cid
              ((received ++ sent).reverse)).isSome
        then 1 else 0) ∧
    (∀ c ∈ mentorFetchChats received sent,
        c.lastMessage
          = firstMessageInvolving UserRole.ESTUDANTE c.id
              ((received ++ sent).reverse)) := by
  refine ⟨?_, ?_, ?_, ?_⟩
  · rw [studentFetchChats_eq_buildChats, buildChats, countP_foldl_addChatEntry]
    simp
  · intro c hc
    rw [studentFetchChats_eq_buildChats, buildChats] at hc
    rcases lastMessage_foldl_addChatEntry _ _ _ _ _ hc with h | ⟨_, h⟩
    · simp at h
    · exact h
  · rw [mentorFetchChats_eq_buildChats, buildChats, countP_foldl_addChatEntry]
    simp
  · intro c hc
    rw [mentorFetchChats_eq_buildChats, buildChats] at hc
    rcases lastMessage_foldl_addChatEntry _ _ _ _ _ hc with h | ⟨_, h⟩
    · simp at h
    · exact h

/-- Witness for the amended C1 at a concrete input (one received and one
sent message, counterpart id `A`). -/
theorem chat_reconciliation_first_seen_witness :
    (studentFetchChats 0
        [{ remetente := { id := "A", name := "Alice", role := UserRole.MENTOR },
           destinatario := { id := "B", name := "Bob", role := UserRole.ESTUDANTE },
           content := "y" }]
        [{ remetente := { id := "B", name := "Bob", role := UserRole.ESTUDANTE },
           destinatario := { id := "A", name := "Alice", role := UserRole.MENTOR },
           content := "x" }]).countP (fun c => c.id = "A")
      = if (firstMessageInvolving UserRole.MENTOR "A"
            ([{ remetente := { id := "A", name := "Alice", role := UserRole.MENTOR },
                destinatario := { id := "B", name := "Bob", role := UserRole.ESTUDANTE },
                content := "y" }] ++
             [{ remetente := { id := "B", name := "Bob", role := UserRole.ESTUDANTE },
                destinatario := { id := "A", name := "Alice", role := UserRole.MENTOR },
                content := "x" }])).isSome
        then 1 else 0 :=
  (chat_reconciliation_first_seen 0
    [{ remetente := { id := "A", name := "Alice", role := UserRole.MENTOR },
       destinatario := { id := "B", name := "Bob", role := UserRole.ESTUDANTE },
       content := "y" }]
    [{ remetente := { id := "B", name := "Bob", role := UserRole.ESTUDANTE },
       destinatario := { id := "A", name := "Alice", role := UserRole.MENTOR },
       content := "x" }] "A").1

/-! ## C2 — rollback of the optimistic message -/

theorem filter_id_ne_eq_self (l : List PanelMessage) (x : String)
    (h : x ∉ l.map (fun m => m.id)) :
    l.filter (fun m => m.id ≠ x) = l := by
  refine List.filter_eq_self.mpr ?_
  intro m hm
  have : m.id ≠ x := fun hh => h (hh ▸ List.mem_map.mpr ⟨m, hm, rfl⟩)
  simpa using this

/-- The mentor page's `handleSendMessage` catches an API failure without
rethrowing: when the send fails it leaves the page state untouched and
the promise it returns does not reject. -/
theorem mentorHandleSendMessage_fails (t : Nat) (content : String)
    (mentorId : Option String) (page : MentorMessagesState) :
    mentorHandleSendMessage t content true mentorId page = (page, false) := by
  cases hsel : page.selectedStudent with
  | none => simp [mentorHandleSendMessage, hsel]
  | some sel => simp [mentorHandleSendMessage, hsel]

/-- C2 counterexample.  (i) A send through the chat panel composed with
the mentor page's `onSendMessage` whose underlying API call fails leaves
the optimistic message in the panel list: the post-failure length is 1,
not the pre-send length 0 — the page handler's `catch` swallows the
rejection, so the panel's rollback never runs.  (ii) Even the panel-level
rollback (when its callback does reject) is not exact: with a pre-existing
message whose synthesized id collides with `Date.now()`, the rollback
filter removes that message too, yielding `[]` instead of the pre-send
list. -/
theorem send_rollback_counterexample :
    ((composedMentorSend 1 7 true (some "M")
        { messages := [], newMessage := "hi" }
        { studentsWithChats := [],
          studentsWithoutChats := [exChat "B" "Bob"],
          selectedStudent := some (exChat "B" "Bob") }).1.messages.length = 1) ∧
    ((composedMentorSend 1 7 true (some "M")
        { messages := [], newMessage := "hi" }
        { studentsWithChats := [],
          studentsWithoutChats := [exChat "B" "Bob"],
          selectedStudent := some (exChat "B" "Bob") }).1.messages
      ≠ []) ∧
    ((panelHandleSendMessage (some "M") 5 true
        { messages := [{ id := "5", userName := "Bob", avatar := none,
                         content := "old" }],
          newMessage := "hi" }).state.messages = []) ∧
    [({ id := "5", userName := "Bob", avatar := none,
        content := "old" } : PanelMessage)] ≠ [] := by
  decide

/-- C2 amended: the panel removes the optimistic message only when the
`onSendMessage` callback itself rejects, and then restores the pre-send
list provided the synthesized id `Date.now().toString()` differs from
every existing message id; when the underlying API send fails inside the
page handler, the handler catches the failure without rethrowing, so the
panel keeps the optimistic message appended and the page state is
unchanged. -/
theorem send_rollback_amended (mentorId : Option String) (now t : Nat)
    (st : PanelState) (page : MentorMessagesState)
    (htrim : ¬ jsTrim st.newMessage = "")
    (hid : jsFalsyStr mentorId = false)
    (hfresh : toString now ∉ st.messages.map (fun m => m.id)) :
    (panelHandleSendMessage mentorId now true st).state.messages
      = st.messages ∧
    (composedMentorSend t now true mentorId st page).1.messages
      = st.messages ++
        [{ id := toString now, userName := "Você", avatar := none,
           content := st.newMessage }] ∧
    (composedMentorSend t now true mentorId st page).2 = page := by
  refine ⟨?_, ?_, ?_⟩
  · simp only [panelHandleSendMessage, hid]
    rw [if_neg (by simpa using htrim)]
    simp [List.filter_append, filter_id_ne_eq_self st.messages (toString now) hfresh]
    intro a ha
    exact fun hh => hfresh (hh ▸ List.mem_map.mpr ⟨a, ha, rfl⟩)
  · simp only [composedMentorSend, hid]
    rw [if_neg (by simpa using htrim)]
    simp [mentorHandleSendMessage_fails]
  · simp only [composedMentorSend, hid]
    rw [if_neg (by simpa using htrim)]
    simp [mentorHandleSendMessage_fails]

/-- Witness for the amended C2 at a concrete input. -/
theorem send_rollback_amended_witness :
    (panelHandleSendMessage (some "M") 7 true
        { messages := [{ id := "1", userName := "Bob", avatar := none,
                         content := "old" }],
          newMessage := "hi" }).state.messages
      = [{ id := "1", userName := "Bob", avatar := none, content := "old" }] ∧
    (composedMentorSend 1 7 true (some "M")
        { messages := [{ id := "1", userName := "Bob", avatar := none,
                         content := "old" }],
          newMessage := "hi" }
        { studentsWithChats := [], studentsWithoutChats := [],
          selectedStudent := none }).1.messages
      = [{ id := "1", userName := "Bob", avatar := none, content := "old" }] ++
        [{ id := "7", userName := "Você", avatar := none, content := "hi" }] ∧
    (composedMentorSend 1 7 true (some "M")
        { messages := [{ id := "1", userName := "Bob", avatar := none,
                         content := "old" }],
          newMessage := "hi" }
        { studentsWithChats := [], studentsWithoutChats := [],
          selectedStudent := none }).2
      = { studentsWithChats := [], studentsWithoutChats := [],
          selectedStudent := none } :=
  send_rollback_amended (some "M") 7 1
    { messages := [{ id := "1", userName := "Bob", avatar := none,
                     content := "old" }],
      newMessage := "hi" }
    { studentsWithChats := [], studentsWithoutChats := [],
      selectedStudent := none }
    (by decide) (by decide) (by decide)

/-! ## C6 — partition invariant for the two counterpart lists -/

/-- The ids of a chat list. -/
def chatIds (l : List Chat) : List String := l.map (fun c => c.id)

theorem mem_chatIds_of_any {l : List Chat} {x : String}
    (h : l.any (fun c => c.id = x) = true) : x ∈ chatIds l := by
  rcases List.any_eq_true.mp h with ⟨c, hcmem, hcx⟩
  exact List.mem_map.mpr ⟨c, hcmem, by simpa using hcx⟩

theorem any_of_mem_chatIds {l : List Chat} {x : String}
    (h : x ∈ chatIds l) : l.any (fun c => c.id = x) = true := by
  rcases List.mem_map.mp h with ⟨c, hcmem, hcx⟩
  exact List.any_eq_true.mpr ⟨c, hcmem, by simpa using hcx⟩

theorem chatIds_filter_sublist (l : List Chat) (p : Chat → Bool) :
    (chatIds (l.filter p)).Sublist (chatIds l) :=
  List.Sublist.map _ (List.filter_sublist l)

theorem mem_chatIds_filter_ne {l : List Chat} {i x : String}
    (hx : x ∈ chatIds (l.filter (fun c => c.id ≠ i))) :
    x ∈ chatIds l ∧ x ≠ i := by
  rcases List.mem_map.mp hx with ⟨c, hcmem, hcid⟩
  refine ⟨List.mem_map.mpr ⟨c, List.mem_of_mem_filter hcmem, hcid⟩, ?_⟩
  have hpc := List.of_mem_filter hcmem
  simp only [decide_eq_true_eq] at hpc
  rw [← hcid]
  simpa using hpc

theorem nodup_chatIds_foldl (target : UserRole) (now : Option Nat)
    (msgs : List MessageDTO) (acc : List Chat)
    (h : (chatIds acc).Nodup) :
    (chatIds (msgs.foldl (addChatEntry target now) acc)).Nodup := by
  induction msgs generalizing acc with
  | nil => exact h
  | cons m rest ih =>
      simp only [List.foldl_cons]
      apply ih
      cases hcp : counterpartOf target m with
      | none => simpa [addChatEntry, hcp] using h
      | some u =>
          by_cases hin : acc.any (fun c => c.id = u.id)
          · simpa [addChatEntry, hcp, counterpartOf_role hcp, hin] using h
          · have hstep : addChatEntry target now acc m
                = acc ++ [chatOfMessage u m now] := by
              simp [addChatEntry, hcp, counterpartOf_role hcp, hin]
            rw [hstep]
            have hids : chatIds (acc ++ [chatOfMessage u m now])
                = chatIds acc ++ [u.id] := by
              simp [chatIds, chatOfMessage]
            rw [hids, List.nodup_append]
            refine ⟨h, by simp, ?_⟩
            intro x hx hx2
            simp only [List.mem_singleton] at hx2
            subst hx2
            exact hin (any_of_mem_chatIds hx)

/-- C6: (a) after reconciliation both pages' two lists have pairwise
distinct counterpart ids with no id in both lists (given a roster with
distinct ids); (b) each page's `handleSendMessage` preserves that
invariant; (c) a successful first send to a counterpart with no chat
history removes it from the "available" list and inserts it exactly once,
at the head, of the "with chats" list. -/
theorem counterpart_partition_invariant (t : Nat)
    (received sent : List MessageDTO) (roster : List UserDTO)
    (hroster : (roster.map (fun u => u.id)).Nodup)
    (mst : MentorMessagesState) (sst : StudentMessagesState)
    (hm : (chatIds mst.studentsWithChats
            ++ chatIds mst.studentsWithoutChats).Nodup)
    (hs : (chatIds sst.mentorsWithChats
            ++ chatIds sst.availableMentors).Nodup)
    (content : String) (apiFails : Bool) (apiResult : Option String)
    (mentorId studentId : Option String) :
    (chatIds (mentorFetchChats received sent)
      ++ chatIds (mentorStudentsWithoutChats roster
            (mentorFetchChats received sent))).Nodup ∧
    (chatIds (studentFetchChats t received sent)
      ++ chatIds (availableMentorsList roster
            (studentFetchChats t received sent))).Nodup ∧
    (chatIds (mentorHandleSendMessage t content apiFails mentorId
          mst).1.studentsWithChats
      ++ chatIds (mentorHandleSendMessage t content apiFails mentorId
          mst).1.studentsWithoutChats).Nodup ∧
    (chatIds (studentHandleSendMessage t content apiResult studentId
          sst).1.mentorsWithChats
      ++ chatIds (studentHandleSendMessage t content apiResult studentId
          sst).1.availableMentors).Nodup ∧
    (∀ sel, mst.selectedStudent = some sel → jsFalsyStr mentorId = false →
      (chatIds (mentorHandleSendMessage t content false mentorId
          mst).1.studentsWithChats).head? = some sel.id ∧
      sel.id ∉ chatIds (mentorHandleSendMessage t content false mentorId
          mst).1.studentsWithoutChats ∧
      (mentorHandleSendMessage t content false mentorId
          mst).1.studentsWithChats.countP (fun c => c.id = sel.id) = 1) ∧
    (∀ sel resp, sst.selectedMentor = some sel →
      jsFalsyStr studentId = false → apiResult = some resp →
      sel.id ∉ chatIds sst.mentorsWithChats →
      (chatIds (studentHandleSendMessage t content apiResult studentId
          sst).1.mentorsWithChats).head? = some sel.id ∧
      sel.id ∉ chatIds (studentHandleSendMessage t content apiResult studentId
          sst).1.availableMentors ∧
      (studentHandleSendMessage t content apiResult studentId
          sst).1.mentorsWithChats.countP (fun c => c.id = sel.id) = 1) := by
  refine ⟨?_, ?_, ?_, ?_, ?_, ?_⟩
  -- (a) mentor page after fetch
  · have hA : (chatIds (mentorFetchChats received sent)).Nodup := by
      rw [mentorFetchChats_eq_buildChats]
      exact nodup_chatIds_foldl _ _ _ [] (by simp [chatIds])
    have hBids : chatIds (mentorStudentsWithoutChats roster
          (mentorFetchChats received sent))
        = (roster.filter (fun student =>
            student.role = UserRole.ESTUDANTE &&
            !((mentorFetchChats received sent).any
              (fun c => c.id = student.id)))).map (fun u => u.id) := by
      simp [mentorStudentsWithoutChats, chatIds, List.map_map, Function.comp]
    rw [List.nodup_append]
    refine ⟨hA, ?_, ?_⟩
    · rw [hBids]
      exact List.Nodup.sublist (List.Sublist.map _ (List.filter_sublist _)) hroster
    · intro x hx hx2
      rw [hBids] at hx2
      rcases List.mem_map.mp hx2 with ⟨u, humem, huid⟩
      have hq := List.of_mem_filter humem
      simp only [Bool.and_eq_true, Bool.not_eq_true'] at hq
      have : (mentorFetchChats received sent).any (fun c => c.id = u.id) = true :=
        any_of_mem_chatIds (huid ▸ hx)
      rw [hq.2] at this
      cases this
  -- (a) student page after fetch
  · have hA : (chatIds (studentFetchChats t received sent)).Nodup := by
      rw [studentFetchChats_eq_buildChats]
      exact nodup_chatIds_foldl _ _ _ [] (by simp [chatIds])
    have hBids : chatIds (availableMentorsList roster
          (studentFetchChats t received sent))
        = ((roster.filter (fun mentor => mentor.role = UserRole.MENTOR)).filter
            (fun mentor => !((studentFetchChats t received sent).any
              (fun c => c.id = mentor.id)))).map (fun u => u.id) := by
      simp [availableMentorsList, chatIds, List.map_map, Function.comp]
    rw [List.nodup_append]
    refine ⟨hA, ?_, ?_⟩
    · rw [hBids]
      refine List.Nodup.sublist ?_ hroster
      exact List.Sublist.map _
        ((List.filter_sublist _).trans (List.filter_sublist _))
    · intro x hx hx2
      rw [hBids] at hx2
      rcases List.mem_map.mp hx2 with ⟨u, humem, huid⟩
      have hq := List.of_mem_filter humem
      simp only [Bool.not_eq_true'] at hq
      have : (studentFetchChats t received sent).any (fun c => c.id = u.id) = true :=
        any_of_mem_chatIds (huid ▸ hx)
      rw [hq] at this
      cases this
  -- (b) mentor send preserves the invariant
  · cases hsel : mst.selectedStudent with
    | none => simpa [mentorHandleSendMessage, hsel] using hm
    | some sel =>
        by_cases hfid : jsFalsyStr mentorId
        · simpa [mentorHandleSendMessage, hsel, hfid] using hm
        · cases apiFails with
          | true => simpa [mentorHandleSendMessage, hsel, hfid] using hm
          | false =>
              have hstate : (mentorHandleSendMessage t content false mentorId
                    mst).1.studentsWithChats
                  = { sel with
                        lastMessage := some content
                        lastMessageTime := some t
                        unread := false } ::
                      mst.studentsWithChats.filter (fun s => s.id ≠ sel.id) ∧
                  (mentorHandleSendMessage t content false mentorId
                    mst).1.studentsWithoutChats
                  = mst.studentsWithoutChats.filter (fun s => s.id ≠ sel.id) := by
                constructor <;> simp [mentorHandleSendMessage, hsel, hfid]
              rw [hstate.1, hstate.2]
              have hshape : chatIds ({ sel with
                      lastMessage := some content
                      lastMessageTime := some t
                      unread := false } ::
                    mst.studentsWithChats.filter (fun s => s.id ≠ sel.id))
                  ++ chatIds (mst.studentsWithoutChats.filter
                    (fun s => s.id ≠ sel.id))
                  = sel.id ::
                    (chatIds (mst.studentsWithChats.filter
                        (fun s => s.id ≠ sel.id))
                      ++ chatIds (mst.studentsWithoutChats.filter
                        (fun s => s.id ≠ sel.id))) := by
                simp [chatIds]
              rw [hshape, List.nodup_cons]
              constructor
              · intro hx
                rcases List.mem_append.mp hx with hx | hx
                · exact (mem_chatIds_filter_ne hx).2 rfl
                · exact (mem_chatIds_filter_ne hx).2 rfl
              · exact List.Nodup.sublist
                  (List.Sublist.append (chatIds_filter_sublist _ _)
                    (chatIds_filter_sublist _ _)) hm
  -- (b) student send preserves the invariant
  · cases hsel : sst.selectedMentor with
    | none => simpa [studentHandleSendMessage, hsel] using hs
    | some sel =>
        by_cases hfid : jsFalsyStr studentId
        · simpa [studentHandleSendMessage, hsel, hfid] using hs
        · cases hapi : apiResult with
          | none => simpa [studentHandleSendMessage, hsel, hfid, hapi] using hs
          | some resp =>
              by_cases hin : sst.mentorsWithChats.any (fun m => m.id = sel.id)
              · have hstate : (studentHandleSendMessage t content (some resp)
                      studentId sst).1.mentorsWithChats
                    = { sel with
                          lastMessage := some resp
                          lastMessageTime := some t
                          unread := false } ::
                        sst.mentorsWithChats.filter (fun m => m.id ≠ sel.id) ∧
                    (studentHandleSendMessage t content (some resp) studentId
                      sst).1.availableMentors = sst.availableMentors := by
                  constructor <;>
                    simp [studentHandleSendMessage, hsel, hfid, hin]
                rw [hstate.1, hstate.2]
                have hshape : chatIds ({ sel with
                        lastMessage := some resp
                        lastMessageTime := some t
                        unread := false } ::
                      sst.mentorsWithChats.filter (fun m => m.id ≠ sel.id))
                    ++ chatIds sst.availableMentors
                    = sel.id ::
                      (chatIds (sst.mentorsWithChats.filter
                          (fun m => m.id ≠ sel.id))
                        ++ chatIds sst.availableMentors) := by
                  simp [chatIds]
                rw [hshape, List.nodup_cons]
                have hselA : sel.id ∈ chatIds sst.mentorsWithChats :=
                  mem_chatIds_of_any hin
                constructor
                · intro hx
                  rcases List.mem_append.mp hx with hx | hx
                  · exact (mem_chatIds_filter_ne hx).2 rfl
                  · exact (List.nodup_append.mp hs).2.2 hselA hx
                · exact List.Nodup.sublist
                    (List.Sublist.append (chatIds_filter_sublist _ _)
                      (List.Sublist.refl _)) hs
              · have hstate : (studentHandleSendMessage t content (some resp)
                      studentId sst).1.mentorsWithChats
                    = { sel with
                          lastMessage := some resp
                          lastMessageTime := some t
                          unread := false } ::
                        sst.mentorsWithChats ∧
                    (studentHandleSendMessage t content (some resp) studentId
                      sst).1.availableMentors
                    = sst.availableMentors.filter (fun m => m.id ≠ sel.id) := by
                  constructor <;>
                    simp [studentHandleSendMessage, hsel, hfid, hin]
                rw [hstate.1, hstate.2]
                have hshape : chatIds ({ sel with
                        lastMessage := some resp
                        lastMessageTime := some t
                        unread := false } ::
                      sst.mentorsWithChats)
                    ++ chatIds (sst.availableMentors.filter
                      (fun m => m.id ≠ sel.id))
                    = sel.id ::
                      (chatIds sst.mentorsWithChats
                        ++ chatIds (sst.availableMentors.filter
                          (fun m => m.id ≠ sel.id))) := by
                  simp [chatIds]
                rw [hshape, List.nodup_cons]
                constructor
                · intro hx
                  rcases List.mem_append.mp hx with hx | hx
                  · exact hin (any_of_mem_chatIds hx)
                  · exact (mem_chatIds_filter_ne hx).2 rfl
                · exact List.Nodup.sublist
                    (List.Sublist.append (List.Sublist.refl _)
                      (chatIds_filter_sublist _ _)) hs
  -- (c) mentor first send: head insertion, removal, exactly once
  · intro sel hsel hfid
    have hstate : (mentorHandleSendMessage t content false mentorId
          mst).1.studentsWithChats
        = { sel with
              lastMessage := some content
              lastMessageTime := some t
              unread := false } ::
            mst.studentsWithChats.filter (fun s => s.id ≠ sel.id) ∧
        (mentorHandleSendMessage t content false mentorId
          mst).1.studentsWithoutChats
        = mst.studentsWithoutChats.filter (fun s => s.id ≠ sel.id) := by
      constructor <;> simp [mentorHandleSendMessage, hsel, hfid]
    refine ⟨?_, ?_, ?_⟩
    · rw [hstate.1]; simp [chatIds]
    · rw [hstate.2]
      intro hx
      exact (mem_chatIds_filter_ne hx).2 rfl
    · rw [hstate.1, List.countP_cons]
      have hz : (mst.studentsWithChats.filter
          (fun s => s.id ≠ sel.id)).countP (fun c => c.id = sel.id) = 0 := by
        rw [List.countP_eq_zero]
        intro c hcmem
        have := List.of_mem_filter hcmem
        simpa using this
      simp [hz]
  -- (c) student first send: head insertion, removal, exactly once
  · intro sel resp hsel hfid hapi hnot
    have hin : sst.mentorsWithChats.any (fun m => m.id = sel.id) = false := by
      cases hb : sst.mentorsWithChats.any (fun m => m.id = sel.id) with
      | false => rfl
      | true => exact absurd (mem_chatIds_of_any hb) hnot
    have hstate : (studentHandleSendMessage t content apiResult studentId
          sst).1.mentorsWithChats
        = { sel with
              lastMessage := some resp
              lastMessageTime := some t
              unread := false } ::
            sst.mentorsWithChats ∧
        (studentHandleSendMessage t content apiResult studentId
          sst).1.availableMentors
        = sst.availableMentors.filter (fun m => m.id ≠ sel.id) := by
      constructor <;> simp [studentHandleSendMessage, hsel, hfid, hapi, hin]
    refine ⟨?_, ?_, ?_⟩
    · rw [hstate.1]; simp [chatIds]
    · rw [hstate.2]
      intro hx
      exact (mem_chatIds_filter_ne hx).2 rfl
    · rw [hstate.1, List.countP_cons]
      have hz : sst.mentorsWithChats.countP (fun c => c.id = sel.id) = 0 := by
        rw [List.countP_eq_zero]
        intro c hcmem
        intro hcc
        exact hnot (List.mem_map.mpr ⟨c, hcmem, by simpa using hcc⟩)
      simp [hz]

/-- Witness for C6 on concrete inputs: empty message lists, a one-student
roster, empty page states. -/
theorem counterpart_partition_invariant_witness :
    (chatIds (mentorFetchChats [] [])
      ++ chatIds (mentorStudentsWithoutChats
          [{ id := "A", name := "Alice", role := UserRole.ESTUDANTE }]
          (mentorFetchChats [] []))).Nodup :=
  (counterpart_partition_invariant 0 [] []
    [{ id := "A", name := "Alice", role := UserRole.ESTUDANTE }]
    (by decide)
    { studentsWithChats := [], studentsWithoutChats := [],
      selectedStudent := none }
    { mentorsWithChats := [], availableMentors := [], selectedMentor := none }
    (by decide) (by decide) "hi" false none none none).1

/-! ## C10 — the unread flag is always false -/

/-- Every record of the list carries `unread = false`. -/
def allUnreadFalse (l : List Chat) : Prop := ∀ c ∈ l, c.unread = false

theorem mentor_send_preserves_unread (t : Nat) (content : String)
    (apiFails : Bool) (mentorId : Option String) (mst : MentorMessagesState)
    (h1 : allUnreadFalse mst.studentsWithChats)
    (h2 : allUnreadFalse mst.studentsWithoutChats)
    (h3 : ∀ sel, mst.selectedStudent = some sel → sel.unread = false) :
    allUnreadFalse (mentorHandleSendMessage t content apiFails mentorId
        mst).1.studentsWithChats ∧
    allUnreadFalse (mentorHandleSendMessage t content apiFails mentorId
        mst).1.studentsWithoutChats ∧
    (∀ sel', (mentorHandleSendMessage t content apiFails mentorId
        mst).1.selectedStudent = some sel' → sel'.unread = false) := by
  cases hsel : mst.selectedStudent with
  | none =>
      have hst : (mentorHandleSendMessage t content apiFails mentorId mst).1
          = mst := by
        simp [mentorHandleSendMessage, hsel]
      rw [hst]
      exact ⟨h1, h2, h3⟩
  | some sel =>
      by_cases hfid : jsFalsyStr mentorId
      · have hst : (mentorHandleSendMessage t content apiFails mentorId mst).1
            = mst := by
          simp [mentorHandleSendMessage, hsel, hfid]
        rw [hst]
        exact ⟨h1, h2, h3⟩
      · cases apiFails with
        | true =>
            have hst : (mentorHandleSendMessage t content true mentorId mst).1
                = mst := by
              simp [mentorHandleSendMessage, hsel, hfid]
            rw [hst]
            exact ⟨h1, h2, h3⟩
        | false =>
            have hA : (mentorHandleSendMessage t content false mentorId
                  mst).1.studentsWithChats
                = { sel with
                      lastMessage := some content
                      lastMessageTime := some t
                      unread := false } ::
                    mst.studentsWithChats.filter (fun s => s.id ≠ sel.id) := by
              simp [mentorHandleSendMessage, hsel, hfid]
            have hB : (mentorHandleSendMessage t content false mentorId
                  mst).1.studentsWithoutChats
                = mst.studentsWithoutChats.filter (fun s => s.id ≠ sel.id) := by
              simp [mentorHandleSendMessage, hsel, hfid]
            have hC : (mentorHandleSendMessage t content false mentorId
                  mst).1.selectedStudent
                = some { sel with
                      lastMessage := some content
                      lastMessageTime := some t
                      unread := false } := by
              simp [mentorHandleSendMessage, hsel, hfid]
            refine ⟨?_, ?_, ?_⟩
            · intro c hc
              rw [hA] at hc
              rcases List.mem_cons.mp hc with h | h
              · rw [h]
              · exact h1 c (List.mem_of_mem_filter h)
            · intro c hc
              rw [hB] at hc
              exact h2 c (List.mem_of_mem_filter hc)
            · intro sel' hsel'
              rw [hC] at hsel'
              cases hsel'
              rfl

theorem student_send_preserves_unread (t : Nat) (content : String)
    (apiResult : Option String) (studentId : Option String)
    (sst : StudentMessagesState)
    (h1 : allUnreadFalse sst.mentorsWithChats)
    (h2 : allUnreadFalse sst.availableMentors)
    (h3 : ∀ sel, sst.selectedMentor = some sel → sel.unread = false) :
    allUnreadFalse (studentHandleSendMessage t content apiResult studentId
        sst).1.mentorsWithChats ∧
    allUnreadFalse (studentHandleSendMessage t content apiResult studentId
        sst).1.availableMentors ∧
    (∀ sel', (studentHandleSendMessage t content apiResult studentId
        sst).1.selectedMentor = some sel' → sel'.unread = false) := by
  cases hsel : sst.selectedMentor with
  | none =>
      have hst : (studentHandleSendMessage t content apiResult studentId
          sst).1 = sst := by
        simp [studentHandleSendMessage, hsel]
      rw [hst]
      exact ⟨h1, h2, h3⟩
  | some sel =>
      have hselu : sel.unread = false := h3 sel hsel
      by_cases hfid : jsFalsyStr studentId
      · have hst : (studentHandleSendMessage t content apiResult studentId
            sst).1 = sst := by
          simp [studentHandleSendMessage, hsel, hfid]
        rw [hst]
        exact ⟨h1, h2, h3⟩
      · cases hapi : apiResult with
        | none =>
            have hst : (studentHandleSendMessage t content none studentId
                sst).1 = sst := by
              simp [studentHandleSendMessage, hsel, hfid]
            rw [hst]
            exact ⟨h1, h2, h3⟩
        | some resp =>
            have hC : (studentHandleSendMessage t content (some resp) studentId
                  sst).1.selectedMentor
                = some { sel with
                      lastMessage := some content
                      lastMessageTime := some t } := by
              by_cases hin : sst.mentorsWithChats.any (fun m => m.id = sel.id) <;>
                simp [studentHandleSendMessage, hsel, hfid, hin]
            by_cases hin : sst.mentorsWithChats.any (fun m => m.id = sel.id)
            · have hA : (studentHandleSendMessage t content (some resp) studentId
                    sst).1.mentorsWithChats
                  = { sel with
                        lastMessage := some resp
                        lastMessageTime := some t
                        unread := false } ::
                      sst.mentorsWithChats.filter (fun m => m.id ≠ sel.id) := by
                simp [studentHandleSendMessage, hsel, hfid, hin]
              have hB : (studentHandleSendMessage t content (some resp) studentId
                    sst).1.availableMentors = sst.availableMentors := by
                simp [studentHandleSendMessage, hsel, hfid, hin]
              refine ⟨?_, ?_, ?_⟩
              · intro c hc
                rw [hA] at hc
                rcases List.mem_cons.mp hc with h | h
                · rw [h]
                · exact h1 c (List.mem_of_mem_filter h)
              · intro c hc
                rw [hB] at hc
                exact h2 c hc
              · intro sel' hsel'
                rw [hC] at hsel'
                cases hsel'
                exact hselu
            · have hA : (studentHandleSendMessage t content (some resp) studentId
                    sst).1.mentorsWithChats
                  = { sel with
                        lastMessage := some resp
                        lastMessageTime := some t
                        unread := false } ::
                      sst.mentorsWithChats := by
                simp [studentHandleSendMessage, hsel, hfid, hin]
              have hB : (studentHandleSendMessage t content (some resp) studentId
                    sst).1.availableMentors
                  = sst.availableMentors.filter (fun m => m.id ≠ sel.id) := by
                simp [studentHandleSendMessage, hsel, hfid, hin]
              refine ⟨?_, ?_, ?_⟩
              · intro c hc
                rw [hA] at hc
                rcases List.mem_cons.mp hc with h | h
                · rw [h]
                · exact h1 c h
              · intro c hc
                rw [hB] at hc
                exact h2 c (List.mem_of_mem_filter hc)
              · intro sel' hsel'
                rw [hC] at hsel'
                cases hsel'
                exact hselu

/-- C10: reconciliation and the roster mapping only produce records with
`unread = false`, and both pages' send handlers preserve the
all-unread-false state of the two lists and of the selected counterpart
(every record they construct carries `unread: false` literally; records
they keep are covered by the inductive hypotheses). -/
theorem unread_always_false (t : Nat) (received sent : List MessageDTO)
    (roster : List UserDTO) (content : String) (apiFails : Bool)
    (apiResult : Option String) (mentorId studentId : Option String)
    (mst : MentorMessagesState) (sst : StudentMessagesState)
    (hm1 : allUnreadFalse mst.studentsWithChats)
    (hm2 : allUnreadFalse mst.studentsWithoutChats)
    (hm3 : ∀ sel, mst.selectedStudent = some sel → sel.unread = false)
    (hs1 : allUnreadFalse sst.mentorsWithChats)
    (hs2 : allUnreadFalse sst.availableMentors)
    (hs3 : ∀ sel, sst.selectedMentor = some sel → sel.unread = false) :
    allUnreadFalse (mentorFetchChats received sent) ∧
    allUnreadFalse (mentorStudentsWithoutChats roster
        (mentorFetchChats received sent)) ∧
    allUnreadFalse (studentFetchChats t received sent) ∧
    allUnreadFalse (availableMentorsList roster
        (studentFetchChats t received sent)) ∧
    allUnreadFalse (mentorHandleSendMessage t content apiFails mentorId
        mst).1.studentsWithChats ∧
    allUnreadFalse (mentorHandleSendMessage t content apiFails mentorId
        mst).1.studentsWithoutChats ∧
    (∀ sel', (mentorHandleSendMessage t content apiFails mentorId
        mst).1.selectedStudent = some sel' → sel'.unread = false) ∧
    allUnreadFalse (studentHandleSendMessage t content apiResult studentId
        sst).1.mentorsWithChats ∧
    allUnreadFalse (studentHandleSendMessage t content apiResult studentId
        sst).1.availableMentors ∧
    (∀ sel', (studentHandleSendMessage t content apiResult studentId
        sst).1.selectedMentor = some sel' → sel'.unread = false) := by
  have hbuild : ∀ (target : UserRole) (now : Option Nat)
      (msgs : List MessageDTO), allUnreadFalse (buildChats target now msgs) := by
    intro target now msgs c hc
    rcases mem_foldl_addChatEntry hc with h | ⟨u, m, _, hcc⟩
    · simp at h
    · rw [hcc]; rfl
  have hmsend := mentor_send_preserves_unread t content apiFails mentorId mst
    hm1 hm2 hm3
  have hssend := student_send_preserves_unread t content apiResult studentId sst
    hs1 hs2 hs3
  refine ⟨?_, ?_, ?_, ?_, hmsend.1, hmsend.2.1, hmsend.2.2,
    hssend.1, hssend.2.1, hssend.2.2⟩
  · rw [mentorFetchChats_eq_buildChats]
    exact hbuild _ _ _
  · intro c hc
    simp only [mentorStudentsWithoutChats] at hc
    rcases List.mem_map.mp hc with ⟨u, _, hg⟩
    rw [← hg]
  · rw [studentFetchChats_eq_buildChats]
    exact hbuild _ _ _
  · intro c hc
    simp only [availableMentorsList] at hc
    rcases List.mem_map.mp hc with ⟨u, _, hg⟩
    rw [← hg]

/-- Witness for C10 on concrete inputs. -/
theorem unread_always_false_witness :
    allUnreadFalse (mentorFetchChats []
      [{ remetente := { id := "A", name := "Alice", role := UserRole.MENTOR },
         destinatario := { id := "B", name := "Bob", role := UserRole.ESTUDANTE },
         content := "hi" }]) :=
  (unread_always_false 0 []
    [{ remetente := { id := "A", name := "Alice", role := UserRole.MENTOR },
       destinatario := { id := "B", name := "Bob", role := UserRole.ESTUDANTE },
       content := "hi" }]
    [] "x" false none none none
    { studentsWithChats := [], studentsWithoutChats := [],
      selectedStudent := none }
    { mentorsWithChats := [], availableMentors := [], selectedMentor := none }
    (by intro c hc; cases hc) (by intro c hc; cases hc)
    (by intro sel h; cases h)
    (by intro c hc; cases hc) (by intro c hc; cases hc)
    (by intro sel h; cases h)).1

end Skillify
